import Mathlib

/-!
Verification development for the Zava workshop toolkit.

Each Python function relevant to the checked properties is shallowly embedded
as an executable Lean definition over `String`/`List Char`, `Nat`/`Int`, and
`Rat` (Python floats are modelled as exact rationals; `round` is modelled as
round-half-even, matching Python's `round`).  SQL row-level-security policies
are embedded as predicates over explicit table rows, with SQL `NULL`
three-valued comparison semantics made explicit via `Option`.
-/

namespace Spec2Proof

/-! ## Python-level helpers shared by several embeddings -/

/-- Python `str.upper()` restricted to ASCII, which is all the data uses. -/
def pyUpperChars (cs : List Char) : List Char :=
  cs.map Char.toUpper

/-- Python `str.split()` with no argument: split on runs of whitespace,
dropping empty words.  `cur` is the reversed word being accumulated. -/
def pyWordsAux : List Char → List Char → List (List Char)
  | cur, [] => if cur.isEmpty then [] else [cur.reverse]
  | cur, c :: cs =>
    if c.isWhitespace then
      if cur.isEmpty then pyWordsAux [] cs else cur.reverse :: pyWordsAux [] cs
    else
      pyWordsAux (c :: cur) cs

def pyWords (cs : List Char) : List (List Char) :=
  pyWordsAux [] cs

/-- Python `int(x)` on a nonnegative-or-negative real value: truncation
toward zero. -/
def pyInt (q : ℚ) : ℤ :=
  if 0 ≤ q then ⌊q⌋ else -⌊-q⌋

/-- Round-half-even to the nearest integer, the behaviour of Python's
`round(x)` on a tie-free or tie value. -/
def rint (q : ℚ) : ℤ :=
  if q - ⌊q⌋ < 1/2 then ⌊q⌋
  else if 1/2 < q - ⌊q⌋ then ⌊q⌋ + 1
  else if (⌊q⌋ : ℤ) % 2 = 0 then ⌊q⌋ else ⌊q⌋ + 1

/-- Python `round(x, d)`: round-half-even at `d` decimal digits. -/
def pyRound (q : ℚ) (d : ℕ) : ℚ :=
  (rint (q * 10 ^ d) : ℚ) / 10 ^ d

/-- Python `f"{n:0Wd}"` for nonnegative `n`: decimal digits left-padded with
zeros to width `width`. -/
def padZeros (width n : ℕ) : String :=
  let s := toString n
  if s.length < width then String.mk (List.replicate (width - s.length) '0') ++ s
  else s

/-! ## Catalog data model (`product_data.json`)

`main_categories` maps a category name to a JSON object whose keys are
product-type names (each holding a list of product dicts) and, optionally,
the key `washington_seasonal_multipliers` holding a list of 12 floats.
Both the SKU assigner and the database generators iterate these objects,
so entries distinguish product dicts from non-dict values (the floats of
the seasonal-multiplier array). -/

structure CatalogProduct where
  name : String
  price : ℚ
  description : String
  sku : Option String
  deriving DecidableEq

inductive CatalogEntry
  | product (p : CatalogProduct)
  | nonDict (x : ℚ)
  deriving DecidableEq

/-- Category name ↦ (key ↦ entry list), in JSON insertion order. -/
abbrev Catalog := List (String × List (String × List CatalogEntry))

namespace Sku

/-- Python `category.replace('&', 'AND')` (the pattern is a single char). -/
def ampToAnd (cs : List Char) : List Char :=
  cs.flatMap (fun c => if c = '&' then ['A', 'N', 'D'] else [c])

/-- `generate_category_code`: 2-character category code. -/
def generate_category_code (category : String) : String :=
  let clean_category := ampToAnd (pyUpperChars category.toList)
  let words := pyWords clean_category
  String.mk (
    if words.length == 1 then
      (words.getD 0 []).take 2
    else if words.length == 2 then
      (words.getD 0 []).take 1 ++ (words.getD 1 []).take 1
    else
      let significant_words := words.filter
        (fun w => w ∉ [['A','N','D'], ['T','H','E'], ['O','F'], ['F','O','R']])
      if significant_words.length ≥ 2 then
        (significant_words.getD 0 []).take 1 ++ (significant_words.getD 1 []).take 1
      else
        (words.getD 0 []).take 1 ++ (words.getD 1 []).take 1)

/-- `generate_type_code`: 2–3 character type code.  `re.sub(r'[^A-Z]', '', t.upper())`
keeps only the uppercase letters. -/
def generate_type_code (product_type : String) : String :=
  let clean_type := (pyUpperChars product_type.toList).filter
    (fun c => 'A' ≤ c ∧ c ≤ 'Z')
  String.mk (
    if clean_type.length ≤ 3 then clean_type
    else if clean_type.length ≤ 6 then clean_type.take 3
    else
      let consonants := (clean_type.drop 1).filter
        (fun c => c ∉ ['A', 'E', 'I', 'O', 'U'])
      if consonants.length ≥ 2 then clean_type.take 1 ++ consonants.take 2
      else clean_type.take 3)

/-- Python `f"{number:03d}"` for nonnegative `number`. -/
def pad3 (n : ℕ) : String :=
  padZeros 3 n

/-- `generate_sku`. -/
def generate_sku (category product_type : String) (number : ℕ) : String :=
  generate_category_code category ++ generate_type_code product_type ++ pad3 number

end Sku

namespace Orders

structure OrderDate where
  year : ℤ
  month : ℤ
  day : ℤ

structure OrderHeader where
  customer_id : ℤ
  store_id : ℤ
  order_date : OrderDate

/-- `num_orders = max(1, int(base_orders * order_frequency))`.  Python's
`int()` truncates toward zero (`pyInt`). -/
def num_orders (base_orders : ℕ) (order_frequency : ℚ) : ℤ :=
  max 1 (pyInt (base_orders * order_frequency))

/-- The claimed per-customer order count, written from the spec's words:
`max(1, round(base_orders * order_frequency_multiplier))` with Python
`round` (half-even). -/
def num_orders_claimed (base_orders : ℕ) (order_frequency : ℚ) : ℤ :=
  max 1 (rint (base_orders * order_frequency))

/-- The `for _ in range(num_orders)` loop of `insert_orders`, one header row
appended per iteration.  The random draws that determine each order's date
are supplied explicitly as `dateDraw`, one per loop iteration. -/
def ordersForCustomer (customer_id store_id : ℤ) (base_orders : ℕ)
    (order_frequency : ℚ) (dateDraw : ℕ → OrderDate) : List OrderHeader :=
  (List.range (num_orders base_orders order_frequency).toNat).map
    (fun k => ⟨customer_id, store_id, dateDraw k⟩)

end Orders

namespace Products

structure ProductRowData where
  sku : String
  product_name : String
  category_id : ℤ
  type_id : ℤ
  cost : ℚ
  base_price : ℚ
  product_description : String
  deriving DecidableEq

/-- The inner `for product_details in product_list` loop.  `cost` is the
catalog price; `base_price = round(cost / 0.67, 2)`; a missing `sku` key
falls back to `f"SKU{len(products_data)+1:06d}"`. -/
def addProducts (category_id type_id : ℤ) (ps : List CatalogProduct)
    (acc : List ProductRowData) : List ProductRowData :=
  ps.foldl (fun acc p =>
    let sku := match p.sku with
      | some s => s
      | none => "SKU" ++ padZeros 6 (acc.length + 1)
    let cost := p.price
    let base_price := pyRound (cost / (67/100)) 2
    acc ++ [⟨sku, p.name, category_id, type_id, cost, base_price, p.description⟩]) acc

/-- `insert_products`, Postgres variant.  `category_mapping` and
`type_mapping` are the id lookups read back from the seeded category and
product-type tables; a failed type lookup skips the bucket with a warning.
The `washington_seasonal_multipliers` key is skipped by name before its
value is read, so only product entries are extracted from the remaining
keys. -/
def insertProductsPostgres (catalog : Catalog) (categoryMapping : String → ℤ)
    (typeMapping : ℤ × String → Option ℤ) : List ProductRowData :=
  catalog.foldl (fun acc cat =>
    let category_id := categoryMapping cat.1
    cat.2.foldl (fun acc sub =>
      if sub.1 = "washington_seasonal_multipliers" then acc
      else if sub.2.isEmpty then acc
      else
        match typeMapping (category_id, sub.1) with
        | none => acc
        | some type_id =>
          let product_list := sub.2.filterMap (fun e => match e with
            | .product p => some p
            | .nonDict _ => none)
          addProducts category_id type_id product_list acc) acc) []

/-- `insert_products`, SQL Server variant: the row computation is line-for-line
the same as the Postgres variant. -/
def insertProductsSqlServer (catalog : Catalog) (categoryMapping : String → ℤ)
    (typeMapping : ℤ × String → Option ℤ) : List ProductRowData :=
  insertProductsPostgres catalog categoryMapping typeMapping

end Products

namespace Similarity

/-- `distance_threshold = 1.0 - (similarity_threshold / 100.0)`. -/
def distance_threshold (similarity_threshold : ℚ) : ℚ :=
  1 - similarity_threshold / 100

/-- `search_products_by_similarity`, data path: cap `max_rows` at 100,
convert the percentage threshold to a distance cutoff, filter/sort/limit,
and append the similarity percent `round(max(0, (1 - distance) * 100), 1)`
to each returned row. -/
def search_products_by_similarity {α : Type} (table : List (α × ℚ))
    (max_rows : ℕ) (similarity_threshold : ℚ) : List (α × ℚ × ℚ) :=
  let max_rows := min max_rows 100
  let dt := distance_threshold similarity_threshold
  let selected := ((table.filter (fun r => r.2 ≤ dt)).mergeSort
    (fun a b => a.2 ≤ b.2)).take max_rows
  selected.map (fun r => (r.1, r.2, pyRound (max 0 ((1 - r.2) * 100)) 1))

end Similarity

namespace Rls

def SUPER_MANAGER_UUID : String := "00000000-0000-0000-0000-000000000000"

structure StoreRow where
  store_id : ℤ
  store_name : String
  rls_user_id : String
  is_online : Bool

structure OrderRow where
  order_id : ℤ
  customer_id : ℤ
  store_id : ℤ

structure OrderItemRow where
  order_item_id : ℤ
  order_id : ℤ
  store_id : ℤ
  product_id : ℤ

structure InventoryRow where
  store_id : ℤ
  product_id : ℤ
  stock_level : ℤ

structure CustomerRow where
  customer_id : ℤ
  primary_store_id : Option ℤ

/-- `current_setting('app.current_rls_user_id', true) = v` under SQL
three-valued logic: false (not merely unknown) filters a row out, and a
`NULL` setting makes every equality non-true. -/
def settingEq (setting : Option String) (v : String) : Bool :=
  match setting with
  | some s => s = v
  | none => false

/-- A nullable integer column compared with `=` against a store id. -/
def nullableIdEq (x : Option ℤ) (y : ℤ) : Bool :=
  match x with
  | some v => v = y
  | none => false

/-- Policy `store_manager_orders` on `retail.orders`. -/
def store_manager_orders (stores : List StoreRow) (setting : Option String)
    (o : OrderRow) : Bool :=
  settingEq setting SUPER_MANAGER_UUID
  || stores.any (fun s => s.store_id == o.store_id && settingEq setting s.rls_user_id)

/-- Policy `store_manager_order_items` on `retail.order_items`. -/
def store_manager_order_items (stores : List StoreRow) (setting : Option String)
    (oi : OrderItemRow) : Bool :=
  settingEq setting SUPER_MANAGER_UUID
  || stores.any (fun s => s.store_id == oi.store_id && settingEq setting s.rls_user_id)

/-- Policy `store_manager_inventory` on `retail.inventory`. -/
def store_manager_inventory (stores : List StoreRow) (setting : Option String)
    (inv : InventoryRow) : Bool :=
  settingEq setting SUPER_MANAGER_UUID
  || stores.any (fun s => s.store_id == inv.store_id && settingEq setting s.rls_user_id)

/-- Policy `store_manager_customers` on `retail.customers`: direct
`primary_store_id` assignment, or (backward compatibility) an order placed
by the customer at a store with the session's identity. -/
def store_manager_customers (stores : List StoreRow) (orders : List OrderRow)
    (setting : Option String) (c : CustomerRow) : Bool :=
  settingEq setting SUPER_MANAGER_UUID
  || stores.any (fun s =>
      nullableIdEq c.primary_store_id s.store_id && settingEq setting s.rls_user_id)
  || orders.any (fun o =>
      stores.any (fun s =>
        o.store_id == s.store_id && o.customer_id == c.customer_id
        && settingEq setting s.rls_user_id))

/-- `SELECT * FROM retail.orders` under RLS. -/
def visibleOrders (stores : List StoreRow) (setting : Option String)
    (orders : List OrderRow) : List OrderRow :=
  orders.filter (store_manager_orders stores setting)

def visibleOrderItems (stores : List StoreRow) (setting : Option String)
    (items : List OrderItemRow) : List OrderItemRow :=
  items.filter (store_manager_order_items stores setting)

def visibleInventory (stores : List StoreRow) (setting : Option String)
    (inv : List InventoryRow) : List InventoryRow :=
  inv.filter (store_manager_inventory stores setting)

def visibleCustomers (stores : List StoreRow) (orders : List OrderRow)
    (setting : Option String) (cs : List CustomerRow) : List CustomerRow :=
  cs.filter (store_manager_customers stores orders setting)

end Rls

namespace Relay

/-- A byte in the 10xxxxxx continuation range. -/
def isCont (b : ℕ) : Bool := 0x80 ≤ b && b ≤ 0xBF

/-- Strict UTF-8 decoding of a byte sequence, the behaviour of Python's
`bytes.decode("utf-8")`: rejects overlong forms, surrogates, and values
above U+10FFFF; `none` models `UnicodeDecodeError`. -/
def utf8DecodeChars : List ℕ → Option (List Char)
  | [] => some []
  | b :: rest =>
    if b < 0x80 then
      (utf8DecodeChars rest).map (fun cs => Char.ofNat b :: cs)
    else if 0xC2 ≤ b && b ≤ 0xDF then
      match rest with
      | b2 :: r =>
        if isCont b2 then
          (utf8DecodeChars r).map
            (fun cs => Char.ofNat ((b - 0xC0) * 0x40 + (b2 - 0x80)) :: cs)
        else none
      | [] => none
    else if (b = 0xE0 || (0xE1 ≤ b && b ≤ 0xEC) || b = 0xED || (0xEE ≤ b && b ≤ 0xEF)) then
      match rest with
      | b2 :: b3 :: r =>
        let okB2 : Bool :=
          if b = 0xE0 then 0xA0 ≤ b2 && b2 ≤ 0xBF
          else if b = 0xED then 0x80 ≤ b2 && b2 ≤ 0x9F
          else isCont b2
        if okB2 && isCont b3 then
          (utf8DecodeChars r).map
            (fun cs => Char.ofNat ((b - 0xE0) * 0x1000 + (b2 - 0x80) * 0x40 + (b3 - 0x80)) :: cs)
        else none
      | _ => none
    else if (b = 0xF0 || (0xF1 ≤ b && b ≤ 0xF3) || b = 0xF4) then
      match rest with
      | b2 :: b3 :: b4 :: r =>
        let okB2 : Bool :=
          if b = 0xF0 then 0x90 ≤ b2 && b2 ≤ 0xBF
          else if b = 0xF4 then 0x80 ≤ b2 && b2 ≤ 0x8F
          else isCont b2
        if okB2 && isCont b3 && isCont b4 then
          (utf8DecodeChars r).map
            (fun cs => Char.ofNat
              ((b - 0xF0) * 0x40000 + (b2 - 0x80) * 0x1000
                + (b3 - 0x80) * 0x40 + (b4 - 0x80)) :: cs)
        else none
      | _ => none
    else none

/-- `content.decode("utf-8")`. -/
def pyBytesDecodeUtf8 (bs : List ℕ) : Option String :=
  (utf8DecodeChars bs).map String.mk

def pyLowerChars (cs : List Char) : List Char :=
  cs.map Char.toLower

/-- Python f-string interpolation of an optional value: `None` renders as
`"None"`. -/
def pyStrOfOpt (o : Option String) : String :=
  match o with
  | some s => s
  | none => "None"

/-- `file.filename.lower().split(".")[-1] if file.filename and "." in
file.filename else ""`. -/
def fileExtension (filename : Option String) : String :=
  match filename with
  | some f =>
    if '.' ∈ f.toList then
      String.mk (((pyLowerChars f.toList).reverse.takeWhile (fun c => c ≠ '.')).reverse)
    else ""
  | none => ""

inductive UploadResult
  | ok (content : String) (filename : Option String)
  | error (msg : String)
  deriving DecidableEq

/-- The text-extraction block of `upload_file`: plain text for txt/md
(`none` models the decode error), placeholder markers for the other
recognized types. -/
def extractFileText (ext : String) (content : List ℕ)
    (filename : Option String) : Option String :=
  if ext = "txt" || ext = "md" then pyBytesDecodeUtf8 content
  else if ext = "pdf" then some ("[PDF file: " ++ pyStrOfOpt filename ++ "]")
  else if ext = "doc" || ext = "docx" then
    some ("[Word document: " ++ pyStrOfOpt filename ++ "]")
  else some ("[Uploaded file: " ++ pyStrOfOpt filename ++ "]")

/-- `WebApp.upload_file`.  The 10MB size check raises
`HTTPException(413, "File too large (max 10MB)")`, which the function's own
`except Exception` swallows into the returned error payload
`"Error processing file: {e!s}"` (and `str` of that exception is
`"413: File too large (max 10MB)"`).  A UTF-8 decode failure takes the same
except-path; its exception text is abbreviated here to its exception-class
name, which no checked property inspects.  The function performs no call to
the agent service: it only returns the combined message to the browser. -/
def upload_file (content : List ℕ) (filename : Option String)
    (message : Option String) : UploadResult :=
  if content.length > 10 * 1024 * 1024 then
    .error "Error processing file: 413: File too large (max 10MB)"
  else
    let ext := fileExtension filename
    match extractFileText ext content filename with
    | none => .error "Error processing file: UnicodeDecodeError"
    | some file_text =>
      let combined := match message with
        | some m =>
          if m = "" then "Please analyze this file:\n\n" ++ file_text
          else m ++ "\n\nAttached file content:\n" ++ file_text
        | none => "Please analyze this file:\n\n" ++ file_text
      .ok combined filename

end Relay

/-- `s` contains `pat` as a contiguous substring. -/
def containsSubstr (s pat : String) : Prop :=
  ∃ a b, s = a ++ pat ++ b

namespace Relay

def lbrace : Char := Char.ofNat 123

def rbrace : Char := Char.ofNat 125

/-- Python `str.strip()`. -/
def pyStripChars (cs : List Char) : List Char :=
  ((cs.dropWhile Char.isWhitespace).reverse.dropWhile Char.isWhitespace).reverse

/-- Python `str.split(sep)` for a one-character separator (keeps empties). -/
def splitOnChar (sep : Char) : List Char → List (List Char)
  | [] => [[]]
  | c :: rest =>
    match splitOnChar sep rest with
    | [] => [[]]
    | w :: ws => if c = sep then [] :: w :: ws else (c :: w) :: ws

inductive JAtom
  | jstr (s : String)
  | jbool (b : Bool)
  | jnull
  | jnum (n : ℤ)
  deriving DecidableEq

inductive JVal
  | atom (a : JAtom)
  | obj (pairs : List (String × JAtom))
  deriving DecidableEq

/-- Python truthiness of a decoded JSON value. -/
def jatomTruthy : JAtom → Bool
  | .jstr s => s ≠ ""
  | .jbool b => b
  | .jnull => false
  | .jnum n => n ≠ 0

def jvalTruthy : JVal → Bool
  | .atom a => jatomTruthy a
  | .obj pairs => !pairs.isEmpty

def jsonWs (c : Char) : Bool :=
  c = ' ' || c = '\t' || c = '\n' || c = '\r'

def skipWs (cs : List Char) : List Char :=
  cs.dropWhile jsonWs

def parseJStringAux : List Char → List Char → Option (String × List Char)
  | [], _ => none
  | c :: rest, acc =>
    if c = '"' then some (String.mk acc.reverse, rest)
    else if c = '\\' then none
    else parseJStringAux rest (c :: acc)

/-- A JSON string literal without escape sequences. -/
def parseJString : List Char → Option (String × List Char)
  | '"' :: rest => parseJStringAux rest []
  | _ => none

def digitsToNat (ds : List Char) : ℕ :=
  ds.foldl (fun a c => a * 10 + (c.toNat - 48)) 0

def parseJNum (cs : List Char) : Option (ℤ × List Char) :=
  match cs with
  | '-' :: rest =>
    let ds := rest.takeWhile Char.isDigit
    if ds.isEmpty then none
    else some (-(digitsToNat ds : ℤ), rest.dropWhile Char.isDigit)
  | _ =>
    let ds := cs.takeWhile Char.isDigit
    if ds.isEmpty then none
    else some ((digitsToNat ds : ℤ), cs.dropWhile Char.isDigit)

def parseJAtom (cs : List Char) : Option (JAtom × List Char) :=
  match parseJString cs with
  | some (s, r) => some (.jstr s, r)
  | none =>
    match cs with
    | 't' :: 'r' :: 'u' :: 'e' :: r => some (.jbool true, r)
    | 'f' :: 'a' :: 'l' :: 's' :: 'e' :: r => some (.jbool false, r)
    | 'n' :: 'u' :: 'l' :: 'l' :: r => some (.jnull, r)
    | _ => (parseJNum cs).map (fun p => (.jnum p.1, p.2))

/-- Key/atom pairs of a flat object, after its opening brace; `fuel` bounds
the recursion by the input length. -/
def parseJPairs (fuel : ℕ) (cs : List Char) (acc : List (String × JAtom)) :
    Option (List (String × JAtom) × List Char) :=
  match fuel with
  | 0 => none
  | fuel + 1 =>
    match parseJString (skipWs cs) with
    | none => none
    | some (k, r1) =>
      match skipWs r1 with
      | ':' :: r2 =>
        match parseJAtom (skipWs r2) with
        | none => none
        | some (v, r3) =>
          match skipWs r3 with
          | ',' :: r4 => parseJPairs fuel r4 (acc ++ [(k, v)])
          | c :: r4 => if c = rbrace then some (acc ++ [(k, v)], r4) else none
          | [] => none
      | _ => none

/-- A flat object `{"k": atom, ...}`. -/
def parseJObjAtoms (cs : List Char) : Option (List (String × JAtom) × List Char) :=
  match cs with
  | c :: rest =>
    if c = lbrace then
      match skipWs rest with
      | c2 :: r2 => if c2 = rbrace then some ([], r2) else parseJPairs (rest.length + 1) rest []
      | [] => none
    else none
  | [] => none

def parseJVal (cs : List Char) : Option (JVal × List Char) :=
  match parseJObjAtoms cs with
  | some (ps, r) => some (.obj ps, r)
  | none => (parseJAtom cs).map (fun p => (.atom p.1, p.2))

/-- Pairs of the top-level object, whose values may be flat objects. -/
def parseTopPairs (fuel : ℕ) (cs : List Char) (acc : List (String × JVal)) :
    Option (List (String × JVal) × List Char) :=
  match fuel with
  | 0 => none
  | fuel + 1 =>
    match parseJString (skipWs cs) with
    | none => none
    | some (k, r1) =>
      match skipWs r1 with
      | ':' :: r2 =>
        match parseJVal (skipWs r2) with
        | none => none
        | some (v, r3) =>
          match skipWs r3 with
          | ',' :: r4 => parseTopPairs fuel r4 (acc ++ [(k, v)])
          | c :: r4 => if c = rbrace then some (acc ++ [(k, v)], r4) else none
          | [] => none
      | _ => none

inductive LineParse
  | malformed
  | nonDict
  | dict (pairs : List (String × JVal))

/-- `json.loads(data_str)` restricted to the dispatch-relevant subset:
a top-level object yields its pairs; a top-level scalar is valid JSON whose
later `.get` access raises; anything else is a parse failure. -/
def jsonLoadsSubset (cs : List Char) : LineParse :=
  match skipWs cs with
  | [] => .malformed
  | c :: rest =>
    if c = lbrace then
      match skipWs rest with
      | c2 :: r2 =>
        if c2 = rbrace then
          (if (skipWs r2).isEmpty then .dict [] else .malformed)
        else
          match parseTopPairs (rest.length + 1) rest [] with
          | some (ps, r3) => if (skipWs r3).isEmpty then .dict ps else .malformed
          | none => .malformed
      | [] => .malformed
    else
      match parseJAtom (c :: rest) with
      | some (_, r) => if (skipWs r).isEmpty then .nonDict else .malformed
      | none => .malformed

/-- Python dict construction keeps the last value for a duplicated key, so
`get` reads the last matching pair. -/
def dictGet (pairs : List (String × JVal)) (k : String) : Option JVal :=
  (pairs.reverse.find? (fun p => p.1 = k)).map (fun p => p.2)

def hexDigit (n : ℕ) : Char :=
  if n < 10 then Char.ofNat (48 + n) else Char.ofNat (97 + n - 10)

/-- `json.dumps` escaping of one character (default `ensure_ascii=True`). -/
def jsonEscapeChar (c : Char) : List Char :=
  if c = '\\' then ['\\', '\\']
  else if c = '"' then ['\\', '"']
  else if c = '\n' then ['\\', 'n']
  else if c = '\t' then ['\\', 't']
  else if c = '\r' then ['\\', 'r']
  else if c.toNat = 8 then ['\\', 'b']
  else if c.toNat = 12 then ['\\', 'f']
  else if c.toNat < 0x20 then
    ['\\', 'u', '0', '0', hexDigit (c.toNat / 16), hexDigit (c.toNat % 16)]
  else if c.toNat < 0x7F then [c]
  else if c.toNat < 0x10000 then
    ['\\', 'u', hexDigit (c.toNat / 4096 % 16), hexDigit (c.toNat / 256 % 16),
      hexDigit (c.toNat / 16 % 16), hexDigit (c.toNat % 16)]
  else
    let v := c.toNat - 0x10000
    let hi := 0xD800 + v / 0x400
    let lo := 0xDC00 + v % 0x400
    ['\\', 'u', hexDigit (hi / 4096 % 16), hexDigit (hi / 256 % 16),
      hexDigit (hi / 16 % 16), hexDigit (hi % 16),
      '\\', 'u', hexDigit (lo / 4096 % 16), hexDigit (lo / 256 % 16),
      hexDigit (lo / 16 % 16), hexDigit (lo % 16)]

def jsonQuote (s : String) : String :=
  "\"" ++ String.mk (s.toList.flatMap jsonEscapeChar) ++ "\""

def dumpJAtom : JAtom → String
  | .jstr s => jsonQuote s
  | .jbool true => "true"
  | .jbool false => "false"
  | .jnull => "null"
  | .jnum n => toString n

def dumpJVal : JVal → String
  | .atom a => dumpJAtom a
  | .obj [] => "\x7b\x7d"
  | .obj pairs =>
    "\x7b" ++ String.intercalate ", "
      (pairs.map (fun p => jsonQuote p.1 ++ ": " ++ dumpJAtom p.2)) ++ "\x7d"

/-- `json.dumps({key: v})` with the default separators. -/
def jsonDumps1 (key : String) (v : JVal) : String :=
  "\x7b" ++ jsonQuote key ++ ": " ++ dumpJVal v ++ "\x7d"

/-- `f"data: {payload}\n\n"`. -/
def sseEvent (payload : String) : String :=
  "data: " ++ payload ++ "\n\n"

/-- The completion sentinel `"data: [DONE]\n\n"`. -/
def doneSentinel : String := "data: [DONE]\n\n"

inductive LineEffect
  | emit (e : String)
  | skip
  | stop
  | crash (msg : String)

/-- One parsed `data:` line through the if/elif dispatch.  A truthy
non-string `content` value crashes the `assistant_message +=` concatenation
(`TypeError`); exception text is abbreviated to the exception-class name. -/
def dispatchLine (pairs : List (String × JVal)) : LineEffect :=
  let content := dictGet pairs "content"
  let file_info := dictGet pairs "file_info"
  let error := dictGet pairs "error"
  let doneV := dictGet pairs "done"
  if (content.map jvalTruthy).getD false then
    match content with
    | some (.atom (.jstr s)) => .emit (sseEvent (jsonDumps1 "content" (.atom (.jstr s))))
    | some _ => .crash "TypeError"
    | none => .skip
  else if (file_info.map jvalTruthy).getD false then
    match file_info with
    | some v => .emit (sseEvent (jsonDumps1 "file" v))
    | none => .skip
  else if (error.map jvalTruthy).getD false then
    match error with
    | some v => .emit (sseEvent (jsonDumps1 "error" v))
    | none => .skip
  else if (doneV.map jvalTruthy).getD false then .stop
  else .skip

/-- One line of a chunk: only lines starting with `"data: "` are examined;
a `json.JSONDecodeError` skips the line. -/
def processLine (line : List Char) : LineEffect :=
  match line with
  | 'd' :: 'a' :: 't' :: 'a' :: ':' :: ' ' :: data_str =>
    match jsonLoadsSubset data_str with
    | .malformed => .skip
    | .nonDict => .crash "AttributeError"
    | .dict pairs => dispatchLine pairs
  | _ => .skip

/-- The `for line in lines` loop: `break` on a done-event ends only this
chunk's lines; an exception aborts the whole stream (second component). -/
def processLines : List (List Char) → List String × Option String
  | [] => ([], none)
  | l :: ls =>
    match processLine l with
    | .emit e =>
      let r := processLines ls
      (e :: r.1, r.2)
    | .skip => processLines ls
    | .stop => ([], none)
    | .crash m => ([], some m)

/-- The `async for chunk in response.aiter_text()` loop. -/
def processChunks : List String → List String × Option String
  | [] => ([], none)
  | ch :: chs =>
    let stripped := pyStripChars ch.toList
    if stripped.isEmpty then processChunks chs
    else
      match processLines (splitOnChar '\n' stripped) with
      | (es, some m) => (es, some m)
      | (es, none) =>
        let r := processChunks chs
        (es ++ r.1, r.2)

inductive Upstream
  | connError (msg : String)
  | response (status : ℕ) (chunks : List String)

/-- `WebApp._generate_stream` as the list of SSE strings it yields.  The
`yield "data: [DONE]\n\n"` sits at the end of the `try` block: an early
`return` (non-200 status) and both `except` handlers (connection error,
in-stream exception) end the generator without reaching it. -/
def generateStream : Upstream → List String
  | .connError msg =>
    [sseEvent (jsonDumps1 "error"
      (.atom (.jstr ("Connection error to agent service: " ++ msg))))]
  | .response status chunks =>
    if status ≠ 200 then
      [sseEvent (jsonDumps1 "error"
        (.atom (.jstr ("Agent service error: " ++ toString status))))]
    else
      match processChunks chunks with
      | (events, some m) =>
        events ++ [sseEvent (jsonDumps1 "error"
          (.atom (.jstr ("Streaming error: " ++ m))))]
      | (events, none) => events ++ [doneSentinel]

end Relay

namespace Handler

def sandboxLit : List Char := "sandbox:/mnt/data".toList

/-- Consume characters distinct from `stop` up to and including the first
`stop`; returns the number of characters consumed. -/
def takeUntilChar (stop : Char) : List Char → Option (ℕ × List Char)
  | [] => none
  | c :: rest =>
    if c = stop then some (1, rest)
    else (takeUntilChar stop rest).map (fun p => (p.1 + 1, p.2))

def matchLit : List Char → List Char → Option (List Char)
  | [], cs => some cs
  | _ :: _, [] => none
  | l :: ls, c :: cs => if c = l then matchLit ls cs else none

/-- Match `\[[^\]]*\]\(sandbox:/mnt/data[^)]*\)` at the head; returns the
match length. -/
def matchCore : List Char → Option ℕ
  | '[' :: rest =>
    match takeUntilChar ']' rest with
    | none => none
    | some (n1, r1) =>
      match r1 with
      | '(' :: r2 =>
        match matchLit sandboxLit r2 with
        | none => none
        | some r3 =>
          match takeUntilChar ')' r3 with
          | none => none
          | some (n2, _) => some (1 + n1 + 1 + sandboxLit.length + n2)
      | _ => none
  | _ => none

/-- Match the full pattern at the head: the greedy `!?` tries the `!` form
first, falling back to the bare form (which requires a leading `[`). -/
def matchAt (cs : List Char) : Option ℕ :=
  match cs with
  | '!' :: rest =>
    match matchCore rest with
    | some n => some (n + 1)
    | none => matchCore cs
  | _ => matchCore cs

/-- `finditer` finds at least one match. -/
def hasMatch : List Char → Bool
  | [] => false
  | c :: rest => (matchAt (c :: rest)).isSome || hasMatch rest

/-- `markdown_pattern.sub("", text)`: delete leftmost non-overlapping
matches.  `skip` counts characters of the current match still to delete,
so the recursion is structural. -/
def subAllSkip : ℕ → List Char → List Char
  | _, [] => []
  | k + 1, _ :: rest => subAllSkip k rest
  | 0, c :: rest =>
    match matchAt (c :: rest) with
    | some n => subAllSkip (n - 1) rest
    | none => c :: subAllSkip 0 rest

def subAll (cs : List Char) : List Char :=
  subAllSkip 0 cs

/-- Python `buffer.rfind("!\x5b")`: the highest index where that two-char
substring starts. -/
def rfindBangBracket : List Char → Option ℕ
  | [] => none
  | c :: rest =>
    match rfindBangBracket rest with
    | some i => some (i + 1)
    | none =>
      if c = '!' ∧ rest.head? = some '[' then some 0 else none

/-- Python `buffer.rfind(ch)` for a single character. -/
def rfindChar (a : Char) : List Char → Option ℕ
  | [] => none
  | c :: rest =>
    match rfindChar a rest with
    | some i => some (i + 1)
    | none => if c = a then some 0 else none

/-- `_process_buffered_text`: returns the emitted content strings and the
new buffer.  The final `if len(...) > self.max_buffer_size` flush
(`max_buffer_size = 1000`) is applied to the updated buffer. -/
def _process_buffered_text (buffer : List Char) : List String × List Char :=
  if buffer.isEmpty then ([], buffer)
  else
    let step :=
      if hasMatch buffer then
        let filtered := subAll buffer
        ((if filtered.isEmpty then [] else [String.mk filtered]), ([] : List Char))
      else
        let image_start_idx := rfindBangBracket buffer
        let link_start_idx := rfindChar '[' buffer
        let exclamation_idx := rfindChar '!' buffer
        let heldStart : Option ℕ :=
          match image_start_idx with
          | some i => some i
          | none =>
            match link_start_idx with
            | some j =>
              -- the Python guard `image_start_idx == -1 or link_start_idx >
              -- image_start_idx + 1` always holds in this elif branch
              some j
            | none =>
              match exclamation_idx with
              | some k => if k = buffer.length - 1 then some k else none
              | none => none
        match heldStart with
        | some i =>
          let text_to_send := buffer.take i
          ((if text_to_send.isEmpty then [] else [String.mk text_to_send]),
            buffer.drop i)
        | none => ([String.mk buffer], [])
    if step.2.length > 1000 then (step.1 ++ [String.mk step.2], [])
    else step

/-- `on_message_delta`: a falsy (empty) delta is skipped entirely;
otherwise the delta is appended to the buffer and the buffer processed. -/
def on_message_delta (buffer : List Char) (delta : String) :
    List String × List Char :=
  if delta = "" then ([], buffer)
  else _process_buffered_text (buffer ++ delta.data)

/-- `on_done`: strip complete matches from any remaining buffer and flush
the remainder. -/
def on_done (buffer : List Char) : List String :=
  if buffer.isEmpty then []
  else
    let filtered := subAll buffer
    if filtered.isEmpty then [] else [String.mk filtered]

/-- Feed a sequence of deltas through `on_message_delta`. -/
def runDeltas (buffer : List Char) : List String → List String × List Char
  | [] => ([], buffer)
  | d :: ds =>
    let r1 := on_message_delta buffer d
    let r2 := runDeltas r1.2 ds
    (r1.1 ++ r2.1, r2.2)

/-- A whole turn: the deltas, then stream completion. -/
def runStream (deltas : List String) : List String :=
  let r := runDeltas [] deltas
  r.1 ++ on_done r.2

/-- The concatenation the claim's four deltas spell out. -/
def mdFull : List Char := "see ![img](sandbox:/mnt/data/x.png) done".data

/-- The markdown image reference that must never be emitted. -/
def mdRef : String := "![img](sandbox:/mnt/data/x.png)"

/-- The handler buffer after any split of the first `i` characters of
`mdFull`: nothing is held outside the span of the image reference
(characters 4–34), and within it the buffer is exactly the partial
reference. -/
def expectedBuf (i : ℕ) : List Char :=
  if 5 ≤ i ∧ i ≤ 34 then (mdFull.take i).drop 4 else []

/-- The concatenation of everything emitted after the first `i` characters
of `mdFull` have been processed. -/
def expectedEmit (i : ℕ) : List Char :=
  if i ≤ 4 then mdFull.take i
  else if i ≤ 34 then mdFull.take 4
  else mdFull.take 4 ++ (mdFull.take i).drop 35

end Handler

namespace Sku

structure Assignment where
  category : String
  product_type : String
  product_index : ℕ
  product_name : String
  generated_sku : String
  deriving DecidableEq

structure AssignState where
  existing_skus : List String
  sku_counters : List (String × ℕ)
  conflicts_resolved : ℕ
  skus_generated : ℕ
  skus_assigned : ℕ
  errors : ℕ
  assignments : List Assignment
  deriving DecidableEq

def counterGet (m : List (String × ℕ)) (k : String) : ℕ :=
  match m.find? (fun p => p.1 = k) with
  | some p => p.2
  | none => 0

def counterSet (m : List (String × ℕ)) (k : String) (v : ℕ) : List (String × ℕ) :=
  match m with
  | [] => [(k, v)]
  | p :: rest => if p.1 = k then (k, v) :: rest else p :: counterSet rest k v

/-- `sku = product.get('sku'); if sku:` — a missing key and an empty string
are both falsy. -/
def skuTruthy (o : Option String) : Option String :=
  match o with
  | some s => if s = "" then none else some s
  | none => none

/-- One entry of the `collect_existing_skus` walk: add a truthy sku to the
set (an add of a present member leaves the set unchanged). -/
def collectStep (acc : List String) (e : CatalogEntry) : List String :=
  match e with
  | .product p =>
    match skuTruthy p.sku with
    | some s => if s ∈ acc then acc else acc ++ [s]
    | none => acc
  | .nonDict _ => acc

def collectEntries (acc : List String) (es : List CatalogEntry) : List String :=
  es.foldl collectStep acc

def collectTypes (acc : List String)
    (ts : List (String × List CatalogEntry)) : List String :=
  ts.foldl (fun acc pt => collectEntries acc pt.2) acc

/-- `collect_existing_skus`: walk every entry list of every category and
add each truthy sku to the set. -/
def collect_existing_skus (catalog : Catalog) : List String :=
  catalog.foldl (fun acc cat => collectTypes acc cat.2) []

/-- The `while final_sku in existing_skus` loop.  Returns the final counter
value, the final SKU, the number of conflict iterations, and whether the
1000-iteration safety break fired (the `logging.error` case).  `fuel` is
the remaining iteration budget — 999 at entry, since the Python `counter`
starts at 1, is incremented each iteration, and breaks above 1000. -/
def skuLoopFuel (existing : List String) (category product_type : String) :
    ℕ → ℕ → String → ℕ × String × ℕ × Bool
  | fuel, sku_counter, final_sku =>
    if final_sku ∈ existing then
      let sku_counter' := sku_counter + 1
      let final_sku' := generate_sku category product_type sku_counter'
      match fuel with
      | 0 => (sku_counter', final_sku', 1, true)
      | f + 1 =>
        let r := skuLoopFuel existing category product_type f sku_counter' final_sku'
        (r.1, r.2.1, r.2.2.1 + 1, r.2.2.2)
    else (sku_counter, final_sku, 0, false)

def skuLoop (existing : List String) (category product_type : String)
    (sku_counter : ℕ) (final_sku : String) : ℕ × String × ℕ × Bool :=
  skuLoopFuel existing category product_type 999 sku_counter final_sku

/-- One catalog entry of the assignment pass.  Products with a truthy sku
and non-dict entries are untouched; otherwise the bucket counter is
advanced, the loop run, the assignment logged, the sku written back unless
`dry_run`, and the final sku added to the set. -/
def processEntry (dry_run : Bool) (category product_type : String) (idx : ℕ)
    (e : CatalogEntry) (st : AssignState) : CatalogEntry × AssignState :=
  match e with
  | .nonDict x => (.nonDict x, st)
  | .product p =>
    match skuTruthy p.sku with
    | some _ => (.product p, st)
    | none =>
      let key := category ++ "/" ++ product_type
      let cnt := counterGet st.sku_counters key + 1
      let base_sku := generate_sku category product_type cnt
      let r := skuLoop st.existing_skus category product_type cnt base_sku
      let a : Assignment := ⟨category, product_type, idx, p.name, r.2.1⟩
      let p' := if dry_run then p else { p with sku := some r.2.1 }
      (.product p',
        { existing_skus :=
            if r.2.1 ∈ st.existing_skus then st.existing_skus
            else st.existing_skus ++ [r.2.1],
          sku_counters := counterSet st.sku_counters key r.1,
          conflicts_resolved := st.conflicts_resolved + r.2.2.1,
          skus_generated := st.skus_generated + 1,
          skus_assigned := st.skus_assigned + (if dry_run then 0 else 1),
          errors := st.errors + (if r.2.2.2 then 1 else 0),
          assignments := st.assignments ++ [a] })

def processEntries (dry_run : Bool) (category product_type : String) :
    ℕ → List CatalogEntry → AssignState → List CatalogEntry × AssignState
  | _, [], st => ([], st)
  | idx, e :: rest, st =>
    let r1 := processEntry dry_run category product_type idx e st
    let r2 := processEntries dry_run category product_type (idx + 1) rest r1.2
    (r1.1 :: r2.1, r2.2)

def processTypes (dry_run : Bool) (category : String) :
    List (String × List CatalogEntry) → AssignState →
      List (String × List CatalogEntry) × AssignState
  | [], st => ([], st)
  | (pt, es) :: rest, st =>
    let r1 := processEntries dry_run category pt 0 es st
    let r2 := processTypes dry_run category rest r1.2
    ((pt, r1.1) :: r2.1, r2.2)

def processCats (dry_run : Bool) : Catalog → AssignState → Catalog × AssignState
  | [], st => ([], st)
  | (c, ts) :: rest, st =>
    let r1 := processTypes dry_run c ts st
    let r2 := processCats dry_run rest r1.2
    ((c, r1.1) :: r2.1, r2.2)

def initState (catalog : Catalog) : AssignState :=
  { existing_skus := collect_existing_skus catalog,
    sku_counters := [],
    conflicts_resolved := 0,
    skus_generated := 0,
    skus_assigned := 0,
    errors := 0,
    assignments := [] }

/-- `generate_and_assign_skus`: the (possibly updated) catalog and the
final bookkeeping state. -/
def generate_and_assign_skus (catalog : Catalog) (dry_run : Bool) :
    Catalog × AssignState :=
  processCats dry_run catalog (initState catalog)

def cexSku (k : ℕ) : String := "AB" ++ pad3 k

def cexL1 : List CatalogEntry :=
  (List.range 1001).map
    (fun i => .product ⟨"P", 1, "d", some (cexSku (i + 1))⟩)

def cexLast : CatalogEntry := .product ⟨"Q", 1, "d", none⟩

def cexEntries : List CatalogEntry := cexL1 ++ [cexLast]

def cexCatalog : Catalog := [("A", [("B", cexEntries)])]

/-- Invariant carried through the assignment pass: the original SKU set is
contained in the running set, every logged assignment's SKU is in the
running set, and while no error has been logged the assigned SKUs are
pairwise distinct and disjoint from the original set. -/
abbrev Inv (orig : List String) (st : AssignState) : Prop :=
  (∀ s ∈ orig, s ∈ st.existing_skus)
  ∧ (∀ a ∈ st.assignments, a.generated_sku ∈ st.existing_skus)
  ∧ (st.errors = 0 →
      ((st.assignments.map (fun a => a.generated_sku)).Nodup
        ∧ ∀ a ∈ st.assignments, a.generated_sku ∉ orig))

end Sku

theorem abs_rint_sub_le (q : ℚ) : |(rint q : ℚ) - q| ≤ 1/2 := by
  have hfl := Int.floor_le q
  have hlt := Int.lt_floor_add_one q
  unfold rint
  split
  · rw [abs_le]; constructor <;> linarith
  · split
    · rw [abs_le]; constructor <;> push_cast <;> linarith
    · split <;> (rw [abs_le]; constructor <;> push_cast <;> linarith)

theorem abs_pyRound_sub_le (q : ℚ) (d : ℕ) :
    |pyRound q d - q| ≤ 1 / (2 * 10 ^ d) := by
  have h10 : (0:ℚ) < 10 ^ d := by positivity
  have h := abs_rint_sub_le (q * 10 ^ d)
  have heq : pyRound q d - q = ((rint (q * 10 ^ d) : ℚ) - q * 10 ^ d) / 10 ^ d := by
    unfold pyRound; field_simp; ring
  rw [heq, abs_div, abs_of_pos h10, div_le_iff₀ h10]
  calc |(rint (q * 10 ^ d) : ℚ) - q * 10 ^ d| ≤ 1/2 := h
    _ = 1 / (2 * 10 ^ d) * 10 ^ d := by field_simp

theorem pyRound_one_lower (q : ℚ) : q - 1/20 ≤ pyRound q 1 := by
  have h := (abs_le.1 (abs_pyRound_sub_le q 1)).1
  have h20 : (1:ℚ)/(2*10^1) = 1/20 := by norm_num
  rw [h20] at h
  linarith

/-- The claim's examples for `generate_type_code`/`generate_category_code`,
checked against the embedded code: four hold, but `generate_type_code "HAMMERS"`
returns `"HMM"` (first letter plus next two consonants of a 7-letter word),
not the `"HAM"` promised by the claim and by the function's own docstring. -/
theorem C5_type_code_divergence :
    Sku.generate_category_code "HAND TOOLS" = "HT"
    ∧ Sku.generate_category_code "LUMBER & BUILDING MATERIALS" = "LB"
    ∧ Sku.generate_type_code "SCREWDRIVERS" = "SCR"
    ∧ Sku.generate_type_code "PLYWOOD" = "PLY"
    ∧ Sku.generate_type_code "HAMMERS" = "HMM"
    ∧ "HMM" ≠ "HAM" := by
  refine ⟨?_, ?_, ?_, ?_, ?_, ?_⟩ <;> decide

/-- The claim's per-customer order-count formula uses `round`, but the code
computes `max(1, int(base_orders * order_frequency))` with truncating `int`.
At `base_orders = 1` and `order_frequency_multiplier = 1.5` the code seeds 1
order while the claimed formula gives `max(1, round(1.5)) = 2`. -/
theorem C6_counterexample :
    Orders.ordersForCustomer 1 1 1 (3/2) (fun _ => ⟨2024, 1, 1⟩) =
      [⟨1, 1, ⟨2024, 1, 1⟩⟩]
    ∧ Orders.num_orders 1 (3/2) = 1
    ∧ Orders.num_orders_claimed 1 (3/2) = 2
    ∧ (1 : ℤ) ≠ 2 := by
  have hfl : ⌊(3/2 : ℚ)⌋ = 1 := by
    rw [Int.floor_eq_iff] <;> norm_num
  have h1 : Orders.num_orders 1 (3/2) = 1 := by
    unfold Orders.num_orders pyInt
    rw [if_pos (by push_cast; norm_num)]
    push_cast
    rw [one_mul, hfl]
    norm_num
  have h2 : Orders.num_orders_claimed 1 (3/2) = 2 := by
    unfold Orders.num_orders_claimed rint
    push_cast
    rw [one_mul, hfl]
    norm_num
  refine ⟨?_, h1, h2, by decide⟩
  unfold Orders.ordersForCustomer
  rw [h1]
  rfl

/-- Amended claim: for every customer processed by the order seeder, the
number of generated orders equals `max(1, int(b * order_frequency))`, with
Python's truncating `int`, where `b` is the drawn base order count. -/
theorem C6_amended_order_count (customer_id store_id : ℤ) (b : ℕ) (f : ℚ)
    (dateDraw : ℕ → Orders.OrderDate) :
    (Orders.ordersForCustomer customer_id store_id b f dateDraw).length
      = (max 1 (pyInt (b * f))).toNat := by
  simp [Orders.ordersForCustomer, Orders.num_orders]

namespace Products

/-- Every row produced by `addProducts` on top of good rows has
`base_price = round(cost / 0.67, 2)`. -/
theorem addProducts_price (category_id type_id : ℤ) (ps : List CatalogProduct)
    (acc : List ProductRowData)
    (hacc : ∀ r ∈ acc, r.base_price = pyRound (r.cost / (67/100)) 2) :
    ∀ r ∈ addProducts category_id type_id ps acc,
      r.base_price = pyRound (r.cost / (67/100)) 2 := by
  induction ps generalizing acc with
  | nil => exact hacc
  | cons p ps ih =>
    intro r hr
    refine ih _ ?_ r hr
    intro r' hr'
    rcases List.mem_append.1 hr' with h | h
    · exact hacc r' h
    · simp only [List.mem_singleton] at h
      subst h
      rfl

theorem insertProductsPostgres_price (catalog : Catalog)
    (cm : String → ℤ) (tm : ℤ × String → Option ℤ) :
    ∀ r ∈ insertProductsPostgres catalog cm tm,
      r.base_price = pyRound (r.cost / (67/100)) 2 := by
  unfold insertProductsPostgres
  generalize hstart : ([] : List ProductRowData) = start
  have hstartP : ∀ r ∈ start, r.base_price = pyRound (r.cost / (67/100)) 2 := by
    subst hstart; simp
  clear hstart
  induction catalog generalizing start with
  | nil => exact hstartP
  | cons cat cats ihcats =>
    simp only [List.foldl_cons]
    apply ihcats
    induction cat.2 generalizing start with
    | nil => exact hstartP
    | cons sub subs ihsubs =>
      simp only [List.foldl_cons]
      apply ihsubs
      split
      · exact hstartP
      · split
        · exact hstartP
        · split
          · exact hstartP
          · exact addProducts_price _ _ _ _ hstartP

end Products

/-- Margin invariant: every product row seeded by either database-generator
variant has `base_price = round(cost / 0.67, 2)` (with `0.67` the exact
rational the float literal denotes up to representation, and Python's
half-even `round`), and consequently, whenever `base_price` is positive, the
realized gross margin `(base_price - cost) / base_price` is within
`0.00335 / base_price` of `0.33` — the rounding tolerance induced by
rounding `cost / 0.67` to two decimals. -/
theorem C8_margin_invariant (catalog : Catalog) (cm : String → ℤ)
    (tm : ℤ × String → Option ℤ) (r : Products.ProductRowData)
    (hr : r ∈ Products.insertProductsPostgres catalog cm tm
        ∨ r ∈ Products.insertProductsSqlServer catalog cm tm) :
    r.base_price = pyRound (r.cost / (67/100)) 2
    ∧ (0 < r.base_price →
        |(r.base_price - r.cost) / r.base_price - 33/100|
          ≤ (67/20000) / r.base_price) := by
  have hmem : r ∈ Products.insertProductsPostgres catalog cm tm := by
    rcases hr with h | h
    · exact h
    · exact h
  have hbp := Products.insertProductsPostgres_price catalog cm tm r hmem
  refine ⟨hbp, fun hpos => ?_⟩
  set bp := r.base_price with hbpdef
  set c := r.cost with hcdef
  have hδ : |bp - c / (67/100)| ≤ 1/200 := by
    have h := abs_pyRound_sub_le (c / (67/100)) 2
    rw [← hbp] at h
    calc |bp - c / (67/100)| ≤ 1 / (2 * 10 ^ 2) := h
      _ = 1/200 := by norm_num
  have hrepr : (bp - c) / bp - 33/100 = (67/100) * (bp - c/(67/100)) / bp := by
    field_simp
    ring
  rw [hrepr, abs_div, abs_of_pos hpos, abs_mul]
  rw [div_le_div_iff_of_pos_right hpos]
  calc |(67:ℚ)/100| * |bp - c/(67/100)| = (67/100) * |bp - c/(67/100)| := by
        rw [abs_of_pos]; norm_num
    _ ≤ (67/100) * (1/200) := by
        apply mul_le_mul_of_nonneg_left hδ; norm_num
    _ = 67/20000 := by norm_num

/-- Witness for the margin invariant at a concrete one-product catalog:
cost 10 seeds `base_price = 14.93` and the margin bound holds there. -/
theorem C8_margin_invariant_witness :
    (⟨"SKU-A", "n", 1, 1, 10, 1493/100, "d"⟩ : Products.ProductRowData)
      ∈ Products.insertProductsPostgres
          [("C", [("T", [.product ⟨"n", 10, "d", some "SKU-A"⟩])])] (fun _ => 1)
          (fun _ => some 1)
    ∧ ((1493:ℚ)/100 = pyRound ((10:ℚ) / (67/100)) 2
      ∧ (0 < (1493:ℚ)/100 →
          |((1493:ℚ)/100 - 10) / (1493/100) - 33/100| ≤ (67/20000) / (1493/100))) := by
  have hfl : ⌊(10:ℚ) / (67/100) * 10 ^ 2⌋ = 1492 := by
    rw [Int.floor_eq_iff] <;> norm_num
  have hpr : pyRound ((10:ℚ) / (67/100)) 2 = 1493/100 := by
    unfold pyRound rint
    rw [hfl]
    norm_num
  have hmem : (⟨"SKU-A", "n", 1, 1, 10, 1493/100, "d"⟩ : Products.ProductRowData)
      ∈ Products.insertProductsPostgres
          [("C", [("T", [.product ⟨"n", 10, "d", some "SKU-A"⟩])])] (fun _ => 1)
          (fun _ => some 1) := by
    simp [Products.insertProductsPostgres, Products.addProducts, hpr]
  exact ⟨hmem,
    C8_margin_invariant
      [("C", [("T", [.product ⟨"n", 10, "d", some "SKU-A"⟩])])] (fun _ => 1)
      (fun _ => some 1) _ (Or.inl hmem)⟩

/-- Similarity-threshold conversion and result bounds: 30% maps to a
cosine-distance cutoff of 0.7 and 100% to 0.0; at most `min(max_rows, 100)`
rows are returned; and every returned row's appended similarity percent is
at least `threshold - 0.05` (the appended percent is rounded to one decimal,
so it can sit up to half of the last retained digit below the threshold —
the claim's "within floating rounding"). -/
theorem C7_similarity_search {α : Type} (table : List (α × ℚ))
    (max_rows : ℕ) (t : ℚ) :
    Similarity.distance_threshold 30 = 7/10
    ∧ Similarity.distance_threshold 100 = 0
    ∧ (Similarity.search_products_by_similarity table max_rows t).length
        ≤ min max_rows 100
    ∧ ∀ r ∈ Similarity.search_products_by_similarity table max_rows t,
        t - 1/20 ≤ r.2.2 := by
  refine ⟨by unfold Similarity.distance_threshold; norm_num,
          by unfold Similarity.distance_threshold; norm_num, ?_, ?_⟩
  · unfold Similarity.search_products_by_similarity
    rw [List.length_map, List.length_take]
    exact Nat.min_le_left _ _
  · intro r hr
    unfold Similarity.search_products_by_similarity at hr
    obtain ⟨s, hs, rfl⟩ := List.mem_map.1 hr
    have hsel : s ∈ table.filter
        (fun r => decide (r.2 ≤ Similarity.distance_threshold t)) :=
      List.mem_mergeSort.1 (List.mem_of_mem_take hs)
    have hd : s.2 ≤ Similarity.distance_threshold t :=
      of_decide_eq_true (List.mem_filter.1 hsel).2
    have hx : t ≤ max 0 ((1 - s.2) * 100) := by
      have h1 : t ≤ (1 - s.2) * 100 := by
        unfold Similarity.distance_threshold at hd
        linarith
      exact h1.trans (le_max_right _ _)
    have hlow := pyRound_one_lower (max 0 ((1 - s.2) * 100))
    dsimp only
    linarith

/-- Witness: a one-row table at distance 0.5 with threshold 30% returns the
single row with appended similarity percent 50, and the theorem's bound is
discharged at that row. -/
theorem C7_similarity_search_witness :
    Similarity.search_products_by_similarity [((7:ℤ), (1/2:ℚ))] 20 30
      = [((7:ℤ), (1/2:ℚ), 50)]
    ∧ (30:ℚ) - 1/20 ≤ ((7:ℤ), (1/2:ℚ), (50:ℚ)).2.2 := by
  have heval : Similarity.search_products_by_similarity [((7:ℤ), (1/2:ℚ))] 20 30
      = [((7:ℤ), (1/2:ℚ), 50)] := by
    unfold Similarity.search_products_by_similarity Similarity.distance_threshold
    norm_num [List.filter, List.mergeSort, pyRound, rint]
  refine ⟨heval, ?_⟩
  exact (C7_similarity_search [((7:ℤ), (1/2:ℚ))] 20 30).2.2.2
    ((7:ℤ), (1/2:ℚ), (50:ℚ)) (heval ▸ List.mem_singleton.2 rfl)

/-- Row-level security partition on `orders`: the all-zero super-manager
identity sees every row; any other identity sees only rows whose store
carries that identity; and, when store ids are unique and the row's store
is `s0`, the `store_manager_orders` predicate admits the row exactly when
the session identity is the super-manager UUID or `s0`'s `rls_user_id`. -/
theorem C1_rls_orders_partition (stores : List Rls.StoreRow)
    (orders : List Rls.OrderRow) :
    Rls.visibleOrders stores (some Rls.SUPER_MANAGER_UUID) orders = orders
    ∧ (∀ (u : String), u ≠ Rls.SUPER_MANAGER_UUID →
        ∀ o ∈ Rls.visibleOrders stores (some u) orders,
          ∃ s ∈ stores, s.store_id = o.store_id ∧ s.rls_user_id = u)
    ∧ (∀ (setting : Option String) (o : Rls.OrderRow) (s0 : Rls.StoreRow),
        (stores.map Rls.StoreRow.store_id).Nodup → s0 ∈ stores →
        s0.store_id = o.store_id →
        (Rls.store_manager_orders stores setting o = true ↔
          setting = some Rls.SUPER_MANAGER_UUID ∨ setting = some s0.rls_user_id)) := by
  refine ⟨?_, ?_, ?_⟩
  · apply List.filter_eq_self.2
    intro o _
    unfold Rls.store_manager_orders Rls.settingEq
    simp
  · intro u hu o ho
    have h := List.mem_filter.1 ho
    have hp := h.2
    unfold Rls.store_manager_orders at hp
    rcases Bool.or_eq_true_iff.1 hp with hsup | hany
    · exact absurd (by simpa [Rls.settingEq] using hsup) hu
    · obtain ⟨s, hs, hcond⟩ := List.any_eq_true.1 hany
      rw [Bool.and_eq_true] at hcond
      refine ⟨s, hs, by simpa using hcond.1, ?_⟩
      have h2 : u = s.rls_user_id := by simpa [Rls.settingEq] using hcond.2
      exact h2.symm
  · intro setting o s0 hnd hs0 hsid
    unfold Rls.store_manager_orders
    rw [Bool.or_eq_true_iff]
    constructor
    · rintro (hsup | hany)
      · left
        cases setting with
        | none => simp [Rls.settingEq] at hsup
        | some v => simp [Rls.settingEq] at hsup; simp [hsup]
      · right
        obtain ⟨s, hs, hcond⟩ := List.any_eq_true.1 hany
        rw [Bool.and_eq_true] at hcond
        have hsid' : s.store_id = o.store_id := by simpa using hcond.1
        have hseq : s = s0 := by
          have hinj := List.inj_on_of_nodup_map hnd
          exact hinj hs hs0 (by rw [hsid', hsid])
        cases setting with
        | none => simp [Rls.settingEq] at hcond
        | some v =>
          have := hcond.2
          simp [Rls.settingEq] at this
          rw [hseq] at this
          simp [this]
    · rintro (hsup | hrls)
      · left; subst hsup; simp [Rls.settingEq]
      · right
        apply List.any_eq_true.2
        refine ⟨s0, hs0, ?_⟩
        rw [Bool.and_eq_true]
        exact ⟨by simpa using hsid, by subst hrls; simp [Rls.settingEq]⟩

/-- Witness for the orders RLS partition on a concrete two-store database. -/
theorem C1_rls_orders_partition_witness :
    Rls.visibleOrders
        [⟨1, "Seattle", "aaaa", false⟩, ⟨2, "Online", "bbbb", true⟩]
        (some Rls.SUPER_MANAGER_UUID)
        [⟨10, 5, 1⟩, ⟨11, 6, 2⟩]
      = [⟨10, 5, 1⟩, ⟨11, 6, 2⟩]
    ∧ (Rls.store_manager_orders
        [⟨1, "Seattle", "aaaa", false⟩, ⟨2, "Online", "bbbb", true⟩]
        (some "aaaa") ⟨10, 5, 1⟩ = true ↔
        (some "aaaa" = some Rls.SUPER_MANAGER_UUID
          ∨ (some "aaaa" : Option String) = some "aaaa")) := by
  have h := C1_rls_orders_partition
    [⟨1, "Seattle", "aaaa", false⟩, ⟨2, "Online", "bbbb", true⟩]
    [⟨10, 5, 1⟩, ⟨11, 6, 2⟩]
  refine ⟨h.1, ?_⟩
  exact h.2.2 (some "aaaa") ⟨10, 5, 1⟩ ⟨1, "Seattle", "aaaa", false⟩
    (by decide) (by simp) rfl

/-- Implicit fail-closed RLS: when the session variable is unset (`none`),
empty, or equal to no store identity and not the super-manager UUID, all
four restricted tables filter to no rows at all. -/
theorem C10_rls_fail_closed (stores : List Rls.StoreRow)
    (setting : Option String) (orders : List Rls.OrderRow)
    (items : List Rls.OrderItemRow) (inv : List Rls.InventoryRow)
    (cs : List Rls.CustomerRow)
    (hsup : setting ≠ some Rls.SUPER_MANAGER_UUID)
    (hstores : ∀ s ∈ stores, setting ≠ some s.rls_user_id) :
    Rls.visibleOrders stores setting orders = []
    ∧ Rls.visibleOrderItems stores setting items = []
    ∧ Rls.visibleInventory stores setting inv = []
    ∧ Rls.visibleCustomers stores orders setting cs = [] := by
  have hsupEq : Rls.settingEq setting Rls.SUPER_MANAGER_UUID = false := by
    cases setting with
    | none => rfl
    | some v =>
      simp only [Rls.settingEq, decide_eq_false_iff_not]
      intro hv
      exact hsup (by rw [hv])
  have hrlsEq : ∀ s ∈ stores, Rls.settingEq setting s.rls_user_id = false := by
    intro s hs
    cases setting with
    | none => rfl
    | some v =>
      simp only [Rls.settingEq, decide_eq_false_iff_not]
      intro hv
      exact hstores s hs (by rw [hv])
  refine ⟨?_, ?_, ?_, ?_⟩
  · apply List.filter_eq_nil_iff.2
    intro o _
    unfold Rls.store_manager_orders
    simp only [hsupEq, Bool.false_or, Bool.not_eq_true, List.any_eq_false]
    intro s hs
    simp [hrlsEq s hs]
  · apply List.filter_eq_nil_iff.2
    intro oi _
    unfold Rls.store_manager_order_items
    simp only [hsupEq, Bool.false_or, Bool.not_eq_true, List.any_eq_false]
    intro s hs
    simp [hrlsEq s hs]
  · apply List.filter_eq_nil_iff.2
    intro iv _
    unfold Rls.store_manager_inventory
    simp only [hsupEq, Bool.false_or, Bool.not_eq_true, List.any_eq_false]
    intro s hs
    simp [hrlsEq s hs]
  · apply List.filter_eq_nil_iff.2
    intro c _
    unfold Rls.store_manager_customers
    rw [hsupEq]
    simp only [Bool.false_or, Bool.not_eq_true, Bool.or_eq_false_iff]
    constructor
    · rw [List.any_eq_false]
      intro s hs
      simp [hrlsEq s hs]
    · rw [List.any_eq_false]
      intro o _
      simp only [Bool.not_eq_true, List.any_eq_false]
      intro s hs
      simp [hrlsEq s hs]

/-- Witness for fail-closed RLS: an unmatched non-empty identity sees no
rows of any restricted table on a concrete database. -/
theorem C10_rls_fail_closed_witness :
    Rls.visibleOrders [⟨1, "Seattle", "aaaa", false⟩] (some "zzzz")
        [⟨10, 5, 1⟩] = []
    ∧ Rls.visibleOrderItems [⟨1, "Seattle", "aaaa", false⟩] (some "zzzz")
        [⟨100, 10, 1, 7⟩] = []
    ∧ Rls.visibleInventory [⟨1, "Seattle", "aaaa", false⟩] (some "zzzz")
        [⟨1, 7, 42⟩] = []
    ∧ Rls.visibleCustomers [⟨1, "Seattle", "aaaa", false⟩] [⟨10, 5, 1⟩]
        (some "zzzz") [⟨5, some 1⟩] = [] :=
  C10_rls_fail_closed [⟨1, "Seattle", "aaaa", false⟩] (some "zzzz")
    [⟨10, 5, 1⟩] [⟨100, 10, 1, 7⟩] [⟨1, 7, 42⟩] [⟨5, some 1⟩]
    (by decide) (by decide)

/-- Upload scenarios: a body of exactly 10MB + 1 bytes is rejected with an
error payload containing "too large", and nothing but that error is
returned (in particular no combined message that could be forwarded); a
`.md` upload within the size limit returns extracted text equal to the
file's UTF-8-decoded content, wrapped in the fixed no-message preamble. -/
theorem C9_upload_scenarios (big body : List ℕ) (filename : Option String)
    (message : Option String) (fname t : String) :
    (big.length = 10 * 1024 * 1024 + 1 →
      Relay.upload_file big filename message
        = .error "Error processing file: 413: File too large (max 10MB)"
      ∧ containsSubstr "Error processing file: 413: File too large (max 10MB)"
          "too large")
    ∧ (body.length ≤ 10 * 1024 * 1024 →
       Relay.fileExtension (some fname) = "md" →
       Relay.pyBytesDecodeUtf8 body = some t →
       Relay.extractFileText (Relay.fileExtension (some fname)) body (some fname)
           = some t
       ∧ Relay.upload_file body (some fname) none
           = .ok ("Please analyze this file:\n\n" ++ t) (some fname)) := by
  constructor
  · intro hlen
    constructor
    · unfold Relay.upload_file
      rw [if_pos (by omega)]
    · exact ⟨"Error processing file: 413: File ", " (max 10MB)", by decide⟩
  · intro hlen hext hdec
    have hextract : Relay.extractFileText (Relay.fileExtension (some fname))
        body (some fname) = some t := by
      rw [hext]
      unfold Relay.extractFileText
      rw [if_pos (by decide)]
      exact hdec
    refine ⟨hextract, ?_⟩
    unfold Relay.upload_file
    rw [if_neg (by omega)]
    simp only [hextract]

/-- Witness for the upload scenarios: a 10485761-byte body is rejected, and
the two-byte `.md` body `"hi"` comes back decoded. -/
theorem C9_upload_scenarios_witness :
    Relay.upload_file (List.replicate (10 * 1024 * 1024 + 1) 0)
        (some "notes.md") none
      = .error "Error processing file: 413: File too large (max 10MB)"
    ∧ Relay.upload_file [104, 105] (some "notes.md") none
      = .ok ("Please analyze this file:\n\n" ++ "hi") (some "notes.md") := by
  have h := C9_upload_scenarios (List.replicate (10 * 1024 * 1024 + 1) 0)
    [104, 105] (some "notes.md") none "notes.md" "hi"
  refine ⟨(h.1 (by rw [List.length_replicate])).1,
    (h.2 (by norm_num) (by decide) (by decide)).2⟩

/-- The claim is false on the code: on upstream connection failure the
relay yields the error event and the generator ends — the `[DONE]`
sentinel at the end of the `try` block is never reached, so the stream
does not terminate with the sentinel. -/
theorem C2_counterexample :
    Relay.generateStream (.connError "boom")
      = [Relay.sseEvent (Relay.jsonDumps1 "error"
          (.atom (.jstr "Connection error to agent service: boom")))]
    ∧ (Relay.generateStream (.connError "boom")).getLast?
        ≠ some Relay.doneSentinel := by
  constructor
  · rfl
  · decide

/-- Amended claim: the relay stream ends with the literal `data: [DONE]`
sentinel exactly on the successful paths — a 200 upstream response whose
chunk processing raises no exception — while a non-200 status or an
upstream connection failure produces a single error event and the stream
terminates without the sentinel. -/
theorem C2_amended_stream_termination (msg : String) (status : ℕ)
    (chunks : List String) :
    ((Relay.processChunks chunks).2 = none →
      (Relay.generateStream (.response 200 chunks)).getLast?
        = some Relay.doneSentinel)
    ∧ (status ≠ 200 →
        Relay.generateStream (.response status chunks)
          = [Relay.sseEvent (Relay.jsonDumps1 "error"
              (.atom (.jstr ("Agent service error: " ++ toString status))))])
    ∧ Relay.generateStream (.connError msg)
      = [Relay.sseEvent (Relay.jsonDumps1 "error"
          (.atom (.jstr ("Connection error to agent service: " ++ msg))))] := by
  refine ⟨?_, ?_, rfl⟩
  · intro h
    simp only [Relay.generateStream]
    rw [if_neg (by simp)]
    rcases hpc : Relay.processChunks chunks with ⟨events, c⟩
    rw [hpc] at h
    simp only at h
    subst h
    simp only
    exact List.getLast?_concat _
  · intro h
    simp only [Relay.generateStream]
    rw [if_pos h]

/-- Witness: a 200 response carrying one content event and a done event
ends with the sentinel; a 503 response and a connection error each produce
exactly one error event. -/
theorem C2_amended_stream_termination_witness :
    (Relay.generateStream (.response 200
        ["data: \x7b\"content\": \"hi\"\x7d\ndata: \x7b\"done\": true\x7d"])).getLast?
      = some Relay.doneSentinel
    ∧ Relay.generateStream (.response 503 [])
      = [Relay.sseEvent (Relay.jsonDumps1 "error"
          (.atom (.jstr ("Agent service error: " ++ toString 503))))]
    ∧ Relay.generateStream (.connError "boom")
      = [Relay.sseEvent (Relay.jsonDumps1 "error"
          (.atom (.jstr ("Connection error to agent service: boom"))))] := by
  have h := C2_amended_stream_termination "boom" 503
    ["data: \x7b\"content\": \"hi\"\x7d\ndata: \x7b\"done\": true\x7d"]
  have h2 := C2_amended_stream_termination "boom" 503 ([] : List String)
  exact ⟨h.1 (by decide), h2.2.1 (by decide), h.2.2⟩

namespace Handler

/-- One processing step preserves the buffer/emission invariant, for every
split boundary pair: checked by evaluation over all 0 ≤ i < j ≤ 40. -/
theorem handlerStepFact :
    ∀ i < 41, ∀ j < 41, i < j →
      (((_process_buffered_text
            (expectedBuf i ++ (mdFull.take j).drop i)).1.map String.data).flatten
          = (expectedEmit j).drop (expectedEmit i).length
        ∧ (_process_buffered_text
            (expectedBuf i ++ (mdFull.take j).drop i)).2 = expectedBuf j) := by
  decide

/-- `expectedEmit` is monotone under prefixing: checked by evaluation. -/
theorem handlerEmitIsPrefix :
    ∀ i < 41, ∀ j < 41, i ≤ j →
      expectedEmit j
        = expectedEmit i ++ (expectedEmit j).drop (expectedEmit i).length := by
  decide

theorem mdFull_length : mdFull.length = 40 := by decide

/-- The split-independent invariant: after any delta sequence spelling out
the first `i` characters of `mdFull`, the handler holds `expectedBuf i` and
has emitted `expectedEmit i`; running the rest lands at position 40. -/
theorem runDeltas_inv (parts : List String) : ∀ i : ℕ, i ≤ 40 →
    (parts.map String.data).flatten = mdFull.drop i →
    ((runDeltas (expectedBuf i) parts).1.map String.data).flatten
        = (expectedEmit 40).drop (expectedEmit i).length
    ∧ (runDeltas (expectedBuf i) parts).2 = expectedBuf 40 := by
  induction parts with
  | nil =>
    intro i hi hrest
    have hlen : (mdFull.drop i).length = 0 := by rw [← hrest]; rfl
    rw [List.length_drop, mdFull_length] at hlen
    have hi40 : i = 40 := by omega
    subst hi40
    exact ⟨(List.drop_length _).symm, rfl⟩
  | cons d ds ih =>
    intro i hi hrest
    by_cases hd : d = ""
    · subst hd
      have hrest' : (ds.map String.data).flatten = mdFull.drop i := by
        simpa using hrest
      obtain ⟨h1, h2⟩ := ih i hi hrest'
      simp only [runDeltas, on_message_delta, if_pos rfl]
      exact ⟨by simpa using h1, by simpa using h2⟩
    · have hflat : d.data ++ (ds.map String.data).flatten = mdFull.drop i := by
        simpa using hrest
      have hdlen : 1 ≤ d.data.length := by
        rcases hdd : d.data with _ | _
        · exact absurd (String.ext hdd) hd
        · simp
      set n := d.data.length with hn
      have hjle : i + n ≤ 40 := by
        have hlen := congrArg List.length hflat
        rw [List.length_append, List.length_drop, mdFull_length] at hlen
        omega
      have hd_eq : (mdFull.take (i + n)).drop i = d.data := by
        rw [← List.take_drop, ← hflat, List.take_left' hn.symm]
      have hds : (ds.map String.data).flatten = mdFull.drop (i + n) := by
        rw [← List.drop_drop, ← hflat, List.drop_left' hn.symm]
      have hstep := handlerStepFact i (by omega) (i + n) (by omega) (by omega)
      rw [hd_eq] at hstep
      obtain ⟨hs1, hs2⟩ := hstep
      obtain ⟨ih1, ih2⟩ := ih (i + n) hjle hds
      have hmsg : on_message_delta (expectedBuf i) d
          = _process_buffered_text (expectedBuf i ++ d.data) := by
        unfold on_message_delta
        rw [if_neg hd]
      have hpre1 := handlerEmitIsPrefix i (by omega) (i + n) (by omega) (by omega)
      have hpre3 := handlerEmitIsPrefix i (by omega) 40 (by omega) hi
      have hpre2 := handlerEmitIsPrefix (i + n) (by omega) 40 (by omega) hjle
      have hseg : (expectedEmit 40).drop (expectedEmit i).length
          = (expectedEmit (i + n)).drop (expectedEmit i).length
            ++ (expectedEmit 40).drop (expectedEmit (i + n)).length := by
        refine @List.append_cancel_left _ (expectedEmit i) _ _ ?_
        rw [← List.append_assoc, ← hpre1, ← hpre2, ← hpre3]
      constructor
      · simp only [runDeltas, hmsg, hs2, List.map_append, List.flatten_append]
        rw [hs1, ih1, hseg]
      · simp only [runDeltas, hmsg, hs2]
        exact ih2

end Handler

/-- Markdown-buffer correctness: for every way of splitting the text
`"see ![img](sandbox:/mnt/data/x.png) done"` into a sequence of deltas —
the claim's four-delta split included — the handler emits text whose
concatenation is exactly `"see "` followed by `" done"`, and no emitted
string contains the markdown image reference. -/
theorem C3_markdown_buffer_correct (parts : List String)
    (h : (parts.map String.data).flatten = Handler.mdFull) :
    String.join (Handler.runStream parts) = "see " ++ " done"
    ∧ ∀ e ∈ Handler.runStream parts, ¬ containsSubstr e Handler.mdRef := by
  have hbuf0 : Handler.expectedBuf 0 = [] := by decide
  have hemit0 : (Handler.expectedEmit 0).length = 0 := by decide
  have hinv := Handler.runDeltas_inv parts 0 (by omega) (by simpa using h)
  rw [hbuf0] at hinv
  obtain ⟨h1, h2⟩ := hinv
  have hrs : Handler.runStream parts = (Handler.runDeltas [] parts).1 := by
    unfold Handler.runStream
    show (Handler.runDeltas [] parts).1
        ++ Handler.on_done (Handler.runDeltas [] parts).2
      = (Handler.runDeltas [] parts).1
    rw [h2]
    have hod : Handler.on_done (Handler.expectedBuf 40) = [] := by decide
    rw [hod, List.append_nil]
  have hflat : ((Handler.runStream parts).map String.data).flatten
      = Handler.expectedEmit 40 := by
    rw [hrs, h1, hemit0, List.drop_zero]
  have hjoin : ∀ l : List String, (String.join l).data = (l.map String.data).flatten := by
    intro l
    have haux : ∀ (init : String) (l : List String),
        (l.foldl (fun a b => a ++ b) init).data
          = init.data ++ (l.map String.data).flatten := by
      intro init l
      induction l generalizing init with
      | nil => simp
      | cons a t iht =>
        simp only [List.foldl_cons, List.map_cons, List.flatten_cons]
        rw [iht, String.data_append, List.append_assoc]
    have := haux "" l
    simpa [String.join] using this
  constructor
  · apply String.ext
    rw [hjoin, hflat]
    decide
  · intro e he hcontain
    obtain ⟨a, b, hab⟩ := hcontain
    have hmemlen : ∀ (l : List String) (x : String), x ∈ l →
        x.data.length ≤ ((l.map String.data).flatten).length := by
      intro l
      induction l with
      | nil => intro x hx; cases hx
      | cons a t iht =>
        intro x hx
        simp only [List.map_cons, List.flatten_cons, List.length_append]
        rcases List.mem_cons.1 hx with rfl | hx'
        · omega
        · have := iht x hx'
          omega
    have hle := hmemlen _ e he
    rw [hflat] at hle
    have h9 : (Handler.expectedEmit 40).length = 9 := by decide
    have hlen : e.data.length = a.data.length + Handler.mdRef.data.length + b.data.length := by
      rw [hab]
      simp only [String.data_append, List.length_append]
    have h31 : Handler.mdRef.data.length = 31 := by decide
    omega

/-- Witness: the claim's four-delta split emits `"see "` then `" done"`,
and the first emitted string does not contain the reference. -/
theorem C3_markdown_buffer_correct_witness :
    String.join (Handler.runStream
        ["see ", "![img](", "sandbox:/mnt/data/x.png)", " done"])
      = "see " ++ " done"
    ∧ ¬ containsSubstr "see " Handler.mdRef := by
  have h := C3_markdown_buffer_correct
    ["see ", "![img](", "sandbox:/mnt/data/x.png)", " done"] (by decide)
  refine ⟨h.1, h.2 "see " ?_⟩
  have : Handler.runStream ["see ", "![img](", "sandbox:/mnt/data/x.png)", " done"]
      = ["see ", " done"] := by decide
  rw [this]
  decide

namespace Sku

theorem cexSku_ne_empty (k : ℕ) : cexSku k ≠ "" := by
  intro h
  have hd := congrArg String.data h
  rw [cexSku, String.data_append] at hd
  simp at hd

theorem mem_collectStep (acc : List String) (e : CatalogEntry) :
    ∀ s ∈ acc, s ∈ collectStep acc e := by
  intro s hs
  cases e with
  | nonDict x => exact hs
  | product p =>
    cases hsku : skuTruthy p.sku with
    | none =>
      show s ∈ collectStep acc (.product p)
      simp only [collectStep, hsku]
      exact hs
    | some s2 =>
      show s ∈ collectStep acc (.product p)
      simp only [collectStep, hsku]
      split
      · exact hs
      · exact List.mem_append_left _ hs

theorem subset_collectEntries (es : List CatalogEntry) :
    ∀ (acc : List String), ∀ s ∈ acc, s ∈ collectEntries acc es := by
  induction es with
  | nil => intro acc s hs; exact hs
  | cons e rest ih =>
    intro acc s hs
    exact ih (collectStep acc e) s (mem_collectStep acc e s hs)

theorem subset_collectTypes (ts : List (String × List CatalogEntry)) :
    ∀ (acc : List String), ∀ s ∈ acc, s ∈ collectTypes acc ts := by
  induction ts with
  | nil => intro acc s hs; exact hs
  | cons pt rest ih =>
    intro acc s hs
    exact ih (collectEntries acc pt.2) s (subset_collectEntries pt.2 acc s hs)

theorem subset_collectCats (cats : Catalog) :
    ∀ (acc : List String), ∀ s ∈ acc,
      s ∈ cats.foldl (fun acc cat => collectTypes acc cat.2) acc := by
  induction cats with
  | nil => intro acc s hs; exact hs
  | cons cat rest ih =>
    intro acc s hs
    exact ih (collectTypes acc cat.2) s (subset_collectTypes cat.2 acc s hs)

theorem mem_collectEntries (es : List CatalogEntry) :
    ∀ (acc : List String) (p : CatalogProduct) (s : String),
      CatalogEntry.product p ∈ es → skuTruthy p.sku = some s →
      s ∈ collectEntries acc es := by
  induction es with
  | nil => intro acc p s hp _; cases hp
  | cons e rest ih =>
    intro acc p s hp hsku
    rcases List.mem_cons.1 hp with rfl | hp'
    · show s ∈ collectEntries (collectStep acc (.product p)) rest
      apply subset_collectEntries
      simp only [collectStep, hsku]
      split
      · assumption
      · exact List.mem_append_right _ (List.mem_singleton.2 rfl)
    · exact ih (collectStep acc e) p s hp' hsku

theorem mem_collectTypes (ts : List (String × List CatalogEntry)) :
    ∀ (acc : List String) (t : String) (es : List CatalogEntry)
      (p : CatalogProduct) (s : String),
      (t, es) ∈ ts → CatalogEntry.product p ∈ es → skuTruthy p.sku = some s →
      s ∈ collectTypes acc ts := by
  induction ts with
  | nil => intro acc t es p s ht _ _; cases ht
  | cons pt rest ih =>
    intro acc t es p s ht hp hsku
    rcases List.mem_cons.1 ht with rfl | ht'
    · show s ∈ collectTypes (collectEntries acc es) rest
      exact subset_collectTypes rest _ s (mem_collectEntries es acc p s hp hsku)
    · exact ih (collectEntries acc pt.2) t es p s ht' hp hsku

/-- Any truthy sku of any product entry of the catalog is collected. -/
theorem mem_collect_of_entry (catalog : Catalog) (c : String)
    (ts : List (String × List CatalogEntry)) (t : String)
    (es : List CatalogEntry) (p : CatalogProduct) (s : String)
    (hc : (c, ts) ∈ catalog) (ht : (t, es) ∈ ts)
    (hp : CatalogEntry.product p ∈ es) (hsku : skuTruthy p.sku = some s) :
    s ∈ collect_existing_skus catalog := by
  have haux : ∀ (cats : Catalog) (acc : List String),
      (c, ts) ∈ cats →
      s ∈ cats.foldl (fun acc cat => collectTypes acc cat.2) acc := by
    intro cats
    induction cats with
    | nil => intro acc hc2; cases hc2
    | cons cat rest ih =>
      intro acc hc2
      rcases List.mem_cons.1 hc2 with rfl | hc'
      · show s ∈ rest.foldl (fun acc cat => collectTypes acc cat.2)
            (collectTypes acc ts)
        exact subset_collectCats rest _ s
          (mem_collectTypes ts acc t es p s ht hp hsku)
      · exact ih (collectTypes acc cat.2) hc'
  exact haux catalog [] hc

theorem cexSku_mem_collect (k : ℕ) (h1 : 1 ≤ k) (h2 : k ≤ 1001) :
    cexSku k ∈ collect_existing_skus cexCatalog := by
  apply mem_collect_of_entry cexCatalog "A" [("B", cexEntries)] "B" cexEntries
    ⟨"P", 1, "d", some (cexSku k)⟩ (cexSku k)
  · show ("A", [("B", cexEntries)]) ∈ [("A", [("B", cexEntries)])]
    exact List.mem_singleton.2 rfl
  · exact List.mem_singleton.2 rfl
  · show CatalogEntry.product ⟨"P", 1, "d", some (cexSku k)⟩
        ∈ ((List.range 1001).map
            (fun i => CatalogEntry.product ⟨"P", 1, "d", some (cexSku (i + 1))⟩))
          ++ [CatalogEntry.product ⟨"Q", 1, "d", none⟩]
    apply List.mem_append_left
    apply List.mem_map.2
    refine ⟨k - 1, ?_, ?_⟩
    · rw [List.mem_range]
      omega
    · have hk : k - 1 + 1 = k := by omega
      rw [hk]
  · show skuTruthy (some (cexSku k)) = some (cexSku k)
    simp only [skuTruthy]
    rw [if_neg (cexSku_ne_empty k)]

theorem gen_AB (m : ℕ) : generate_sku "A" "B" m = cexSku m := by
  unfold generate_sku cexSku
  have h1 : generate_category_code "A" = "A" := by decide
  have h2 : generate_type_code "B" = "B" := by decide
  rw [h1, h2]
  apply String.ext
  simp [String.data_append]

/-- On the counterexample set every retry collides, so the loop walks the
counter from `k` up to the break, ending at `AB1001` with the error
logged. -/
theorem cex_loop (E : List String)
    (hmem : ∀ k, 1 ≤ k → k ≤ 1001 → cexSku k ∈ E) :
    ∀ fuel k, 1 ≤ k → k + fuel = 1000 →
      skuLoopFuel E "A" "B" fuel k (cexSku k)
        = (1001, cexSku 1001, 1001 - k, true) := by
  intro fuel
  induction fuel with
  | zero =>
    intro k h1 hk
    have hk1000 : k = 1000 := by omega
    subst hk1000
    unfold skuLoopFuel
    rw [if_pos (hmem 1000 (by omega) (by omega))]
    simp only [gen_AB]
  | succ f ih =>
    intro k h1 hk
    unfold skuLoopFuel
    rw [if_pos (hmem k h1 (by omega))]
    simp only [gen_AB]
    rw [show skuLoopFuel E "A" "B" f (k + 1) (cexSku (k + 1))
        = (1001, cexSku 1001, 1001 - (k + 1), true) from ih (k + 1) (by omega) (by omega)]
    simp only
    have hc : 1001 - (k + 1) + 1 = 1001 - k := by omega
    rw [hc]

theorem processEntries_skip (d : Bool) (c t : String) :
    ∀ (es : List CatalogEntry) (idx : ℕ) (st : AssignState),
      (∀ p, CatalogEntry.product p ∈ es → skuTruthy p.sku ≠ none) →
      processEntries d c t idx es st = (es, st) := by
  intro es
  induction es with
  | nil => intro idx st _; rfl
  | cons e rest ih =>
    intro idx st h
    have hstep : processEntry d c t idx e st = (e, st) := by
      cases e with
      | nonDict x => rfl
      | product p =>
        have hp := h p (List.mem_cons_self _ _)
        cases hsku : skuTruthy p.sku with
        | none => exact absurd hsku hp
        | some s => simp [processEntry, hsku]
    simp only [processEntries, hstep]
    rw [ih (idx + 1) st (fun p hp => h p (List.mem_cons_of_mem _ hp))]

theorem processEntries_append (d : Bool) (c t : String) :
    ∀ (l1 l2 : List CatalogEntry) (idx : ℕ) (st : AssignState),
      processEntries d c t idx (l1 ++ l2) st
        = ((processEntries d c t idx l1 st).1
            ++ (processEntries d c t (idx + l1.length) l2
                (processEntries d c t idx l1 st).2).1,
          (processEntries d c t (idx + l1.length) l2
              (processEntries d c t idx l1 st).2).2) := by
  intro l1
  induction l1 with
  | nil => intro l2 idx st; simp [processEntries]
  | cons e rest ih =>
    intro l2 idx st
    simp only [List.cons_append, processEntries]
    rw [show rest.append l2 = rest ++ l2 from rfl, ih]
    have hlen : idx + 1 + rest.length = idx + (rest.length + 1) := by omega
    simp [hlen]

/-- If the retry loop ends without the safety break firing, the final SKU
is outside the existing set. -/
theorem skuLoopFuel_fresh (E : List String) (c t : String) :
    ∀ (fuel cnt : ℕ) (sku : String),
      (skuLoopFuel E c t fuel cnt sku).2.2.2 = false →
      (skuLoopFuel E c t fuel cnt sku).2.1 ∉ E := by
  intro fuel
  induction fuel with
  | zero =>
    intro cnt sku h
    by_cases hm : sku ∈ E
    · exfalso
      unfold skuLoopFuel at h
      rw [if_pos hm] at h
      simp at h
    · unfold skuLoopFuel
      rw [if_neg hm]
      exact hm
  | succ f ih =>
    intro cnt sku h
    by_cases hm : sku ∈ E
    · unfold skuLoopFuel at h ⊢
      rw [if_pos hm] at h ⊢
      dsimp only at h ⊢
      exact ih _ _ h
    · unfold skuLoopFuel
      rw [if_neg hm]
      exact hm

theorem skuLoop_fresh (E : List String) (c t : String) (cnt : ℕ) (sku : String)
    (h : (skuLoop E c t cnt sku).2.2.2 = false) :
    (skuLoop E c t cnt sku).2.1 ∉ E :=
  skuLoopFuel_fresh E c t 999 cnt sku h

theorem inv_step (orig : List String) (st : AssignState) (s : String)
    (errored : Bool) (a : Assignment) (sc : List (String × ℕ)) (cr sg sa : ℕ)
    (hfresh : errored = false → s ∉ st.existing_skus)
    (ha : a.generated_sku = s)
    (hinv : Inv orig st) :
    Inv orig
      { existing_skus := if s ∈ st.existing_skus then st.existing_skus
          else st.existing_skus ++ [s],
        sku_counters := sc,
        conflicts_resolved := cr,
        skus_generated := sg,
        skus_assigned := sa,
        errors := st.errors + (if errored then 1 else 0),
        assignments := st.assignments ++ [a] } := by
  obtain ⟨h1, h2, h3⟩ := hinv
  have hsE : s ∈ if s ∈ st.existing_skus then st.existing_skus
      else st.existing_skus ++ [s] := by
    by_cases hm : s ∈ st.existing_skus
    · rw [if_pos hm]; exact hm
    · rw [if_neg hm]; exact List.mem_append_right _ (List.mem_singleton.2 rfl)
  have hsub : ∀ x ∈ st.existing_skus,
      x ∈ if s ∈ st.existing_skus then st.existing_skus
        else st.existing_skus ++ [s] := by
    intro x hx
    by_cases hm : s ∈ st.existing_skus
    · rw [if_pos hm]; exact hx
    · rw [if_neg hm]; exact List.mem_append_left _ hx
  refine ⟨fun x hx => hsub x (h1 x hx), ?_, ?_⟩
  · intro b hb
    rcases List.mem_append.1 hb with hb | hb
    · exact hsub _ (h2 b hb)
    · rw [List.mem_singleton.1 hb, ha]
      exact hsE
  · intro herr
    have he0 : st.errors = 0 ∧ errored = false := by
      cases errored with
      | false => exact ⟨by simpa using herr, rfl⟩
      | true => simp at herr
    have hf := hfresh he0.2
    obtain ⟨hnd, hno⟩ := h3 he0.1
    constructor
    · rw [List.map_append]
      apply List.Nodup.append hnd (by simp)
      intro x hx1 hx2
      simp at hx2
      obtain ⟨b, hb, hbs⟩ := List.mem_map.1 hx1
      rw [hx2, ha] at hbs
      exact hf (hbs ▸ h2 b hb)
    · intro b hb
      rcases List.mem_append.1 hb with hb | hb
      · exact hno b hb
      · rw [List.mem_singleton.1 hb, ha]
        intro hcon
        exact hf (h1 s hcon)

theorem processEntry_inv (d : Bool) (c t : String) (idx : ℕ) (e : CatalogEntry)
    (orig : List String) (st : AssignState) (hinv : Inv orig st) :
    Inv orig (processEntry d c t idx e st).2 := by
  cases e with
  | nonDict x => exact hinv
  | product p =>
    cases hsku : skuTruthy p.sku with
    | some s =>
      simp only [processEntry, hsku]
      exact hinv
    | none =>
      simp only [processEntry, hsku]
      exact inv_step orig st _ _ _ _ _ _ _
        (skuLoop_fresh st.existing_skus c t _ _) rfl hinv

theorem processEntries_inv (d : Bool) (c t : String) (orig : List String) :
    ∀ (es : List CatalogEntry) (idx : ℕ) (st : AssignState),
      Inv orig st → Inv orig (processEntries d c t idx es st).2 := by
  intro es
  induction es with
  | nil => intro idx st h; exact h
  | cons e rest ih =>
    intro idx st h
    simp only [processEntries]
    exact ih _ _ (processEntry_inv d c t idx e orig st h)

theorem processTypes_inv (d : Bool) (c : String) (orig : List String) :
    ∀ (ts : List (String × List CatalogEntry)) (st : AssignState),
      Inv orig st → Inv orig (processTypes d c ts st).2 := by
  intro ts
  induction ts with
  | nil => intro st h; exact h
  | cons pt rest ih =>
    intro st h
    simp only [processTypes]
    exact ih _ (processEntries_inv d c pt.1 orig pt.2 0 st h)

theorem processCats_inv (d : Bool) (orig : List String) :
    ∀ (catalog : Catalog) (st : AssignState),
      Inv orig st → Inv orig (processCats d catalog st).2 := by
  intro catalog
  induction catalog with
  | nil => intro st h; exact h
  | cons cat rest ih =>
    intro st h
    simp only [processCats]
    exact ih _ (processTypes_inv d cat.1 orig cat.2 st h)

theorem generate_inv (catalog : Catalog) (d : Bool) :
    Inv (collect_existing_skus catalog)
      (generate_and_assign_skus catalog d).2 := by
  have hinit : Inv (collect_existing_skus catalog) (initState catalog) := by
    refine ⟨fun s hs => hs, fun a ha => absurd ha (List.not_mem_nil a),
      fun _ => ⟨List.nodup_nil, fun a ha => absurd ha (List.not_mem_nil a)⟩⟩
  exact processCats_inv d (collect_existing_skus catalog) catalog
    (initState catalog) hinit

/-- In dry-run mode every entry is returned unchanged. -/
theorem processEntry_fst (c t : String) (idx : ℕ) (e : CatalogEntry)
    (st : AssignState) : (processEntry true c t idx e st).1 = e := by
  cases e with
  | nonDict x => rfl
  | product p =>
    cases hsku : skuTruthy p.sku with
    | some s => simp only [processEntry, hsku]
    | none => simp only [processEntry, hsku, if_true]

theorem processEntries_fst (c t : String) :
    ∀ (es : List CatalogEntry) (idx : ℕ) (st : AssignState),
      (processEntries true c t idx es st).1 = es := by
  intro es
  induction es with
  | nil => intro idx st; rfl
  | cons e rest ih =>
    intro idx st
    simp only [processEntries, processEntry_fst, ih]

theorem processTypes_fst (c : String) :
    ∀ (ts : List (String × List CatalogEntry)) (st : AssignState),
      (processTypes true c ts st).1 = ts := by
  intro ts
  induction ts with
  | nil => intro st; rfl
  | cons pt rest ih =>
    intro st
    simp only [processTypes, processEntries_fst, ih]

theorem processCats_fst :
    ∀ (catalog : Catalog) (st : AssignState),
      (processCats true catalog st).1 = catalog := by
  intro catalog
  induction catalog with
  | nil => intro st; rfl
  | cons cat rest ih =>
    intro st
    simp only [processCats, processTypes_fst, ih]

theorem generate_dry_run_fst (catalog : Catalog) :
    (generate_and_assign_skus catalog true).1 = catalog := by
  simp only [generate_and_assign_skus]
  exact processCats_fst catalog (initState catalog)

end Sku

/-- The claim is false on the code: on a catalog whose pre-existing SKUs
`AB001`…`AB1001` fill the whole retry range of bucket `A`/`B`, the single
product without a sku exhausts the 1000-iteration conflict retry, the
conflict is logged, and the loop then assigns `AB1001` — a member of the
pre-existing SKU set. -/
theorem C4_counterexample :
    ((Sku.generate_and_assign_skus Sku.cexCatalog true).2.assignments.map
        (fun a => a.generated_sku)) = ["AB1001"]
    ∧ "AB1001" ∈ Sku.collect_existing_skus Sku.cexCatalog
    ∧ (Sku.generate_and_assign_skus Sku.cexCatalog true).2.errors = 1 := by
  have hab : Sku.cexSku 1001 = "AB1001" := by decide
  have hinit : (Sku.initState Sku.cexCatalog).existing_skus
      = Sku.collect_existing_skus Sku.cexCatalog := by
    simp only [Sku.initState]
  have hmem : ∀ k, 1 ≤ k → k ≤ 1001 →
      Sku.cexSku k ∈ (Sku.initState Sku.cexCatalog).existing_skus := by
    intro k h1 h2
    rw [hinit]
    exact Sku.cexSku_mem_collect k h1 h2
  have hloop : Sku.skuLoop (Sku.initState Sku.cexCatalog).existing_skus "A" "B" 1
      (Sku.generate_sku "A" "B" 1) = (1001, Sku.cexSku 1001, 1000, true) := by
    rw [Sku.gen_AB]
    exact Sku.cex_loop _ hmem 999 1 (by omega) (by omega)
  have hcsk : Sku.counterGet (Sku.initState Sku.cexCatalog).sku_counters
      ("A" ++ "/" ++ "B") = 0 := by
    simp only [Sku.initState, Sku.counterGet, List.find?_nil]
  have hpe : Sku.processEntry true "A" "B" 1001 Sku.cexLast
      (Sku.initState Sku.cexCatalog)
      = (Sku.cexLast,
        { existing_skus := (Sku.initState Sku.cexCatalog).existing_skus,
          sku_counters := Sku.counterSet
            (Sku.initState Sku.cexCatalog).sku_counters ("A" ++ "/" ++ "B") 1001,
          conflicts_resolved :=
            (Sku.initState Sku.cexCatalog).conflicts_resolved + 1000,
          skus_generated := (Sku.initState Sku.cexCatalog).skus_generated + 1,
          skus_assigned := (Sku.initState Sku.cexCatalog).skus_assigned,
          errors := (Sku.initState Sku.cexCatalog).errors + 1,
          assignments := (Sku.initState Sku.cexCatalog).assignments
            ++ [⟨"A", "B", 1001, "Q", Sku.cexSku 1001⟩] }) := by
    simp only [Sku.cexLast, Sku.processEntry, Sku.skuTruthy, hcsk, Nat.zero_add]
    rw [hloop]
    rw [if_pos (hmem 1001 (by omega) (by omega))]
    simp only [if_true, Nat.add_zero]
  have hskip : ∀ st : Sku.AssignState,
      Sku.processEntries true "A" "B" 0 Sku.cexL1 st = (Sku.cexL1, st) := by
    intro st
    apply Sku.processEntries_skip
    intro p hp
    obtain ⟨i, hi, heq⟩ := List.mem_map.1 hp
    cases heq
    simp [Sku.skuTruthy, Sku.cexSku_ne_empty]
  have hlen1 : Sku.cexL1.length = 1001 := by
    simp only [Sku.cexL1, List.length_map, List.length_range]
  have hce : Sku.cexEntries = Sku.cexL1 ++ [Sku.cexLast] := by
    unfold Sku.cexEntries
    rfl
  have hcc : Sku.cexCatalog = [("A", [("B", Sku.cexEntries)])] := by
    unfold Sku.cexCatalog
    rfl
  have hkey : ∀ st : Sku.AssignState,
      (Sku.processCats true [("A", [("B", Sku.cexEntries)])] st).2
        = (Sku.processEntry true "A" "B" 1001 Sku.cexLast st).2 := by
    intro st
    simp only [Sku.processCats, Sku.processTypes]
    rw [hce, Sku.processEntries_append, hskip st]
    simp only [hlen1, Nat.zero_add, Sku.processEntries]
  have hfin : (Sku.generate_and_assign_skus Sku.cexCatalog true).2
      = (Sku.processEntry true "A" "B" 1001 Sku.cexLast
          (Sku.initState Sku.cexCatalog)).2 := by
    simp only [Sku.generate_and_assign_skus]
    nth_rewrite 1 [hcc]
    exact hkey (Sku.initState Sku.cexCatalog)
  refine ⟨?_, hab ▸ Sku.cexSku_mem_collect 1001 (by omega) (by omega), ?_⟩
  · rw [hfin, hpe]
    simp [Sku.initState, hab]
  · rw [hfin, hpe]
    simp [Sku.initState]

/-- C4 (amended): the assignment pass is a deterministic pure function of
the catalog; in dry-run mode the catalog is returned unchanged; and
whenever the run reports zero errors (no product exhausted the
1000-iteration conflict retry), every assigned SKU lies outside the
pre-existing SKU set and no two assigned SKUs collide. -/
theorem C4_amended_sku_uniqueness (catalog : Catalog)
    (h : (Sku.generate_and_assign_skus catalog true).2.errors = 0) :
    (Sku.generate_and_assign_skus catalog true).1 = catalog
    ∧ (∀ a ∈ (Sku.generate_and_assign_skus catalog true).2.assignments,
        a.generated_sku ∉ Sku.collect_existing_skus catalog)
    ∧ ((Sku.generate_and_assign_skus catalog true).2.assignments.map
        (fun a => a.generated_sku)).Nodup := by
  obtain ⟨h1, h2, h3⟩ := Sku.generate_inv catalog true
  exact ⟨Sku.generate_dry_run_fst catalog, (h3 h).2, (h3 h).1⟩

/-- Witness: a two-product catalog with one pre-existing SKU runs with zero
errors, is returned unchanged by the dry run, and both assigned SKUs avoid
the pre-existing one and each other. -/
theorem C4_amended_sku_uniqueness_witness :
    (Sku.generate_and_assign_skus
        [("HAND TOOLS", [("HAMMERS",
          [CatalogEntry.product ⟨"Claw Hammer", 10, "d", none⟩,
           CatalogEntry.product ⟨"Sledge Hammer", 20, "d", some "X1"⟩,
           CatalogEntry.product ⟨"Tack Hammer", 5, "d", none⟩])])]
        true).2.errors = 0
    ∧ ((Sku.generate_and_assign_skus
        [("HAND TOOLS", [("HAMMERS",
          [CatalogEntry.product ⟨"Claw Hammer", 10, "d", none⟩,
           CatalogEntry.product ⟨"Sledge Hammer", 20, "d", some "X1"⟩,
           CatalogEntry.product ⟨"Tack Hammer", 5, "d", none⟩])])]
        true).1
      = [("HAND TOOLS", [("HAMMERS",
          [CatalogEntry.product ⟨"Claw Hammer", 10, "d", none⟩,
           CatalogEntry.product ⟨"Sledge Hammer", 20, "d", some "X1"⟩,
           CatalogEntry.product ⟨"Tack Hammer", 5, "d", none⟩])])]
      ∧ (∀ a ∈ (Sku.generate_and_assign_skus
          [("HAND TOOLS", [("HAMMERS",
            [CatalogEntry.product ⟨"Claw Hammer", 10, "d", none⟩,
             CatalogEntry.product ⟨"Sledge Hammer", 20, "d", some "X1"⟩,
             CatalogEntry.product ⟨"Tack Hammer", 5, "d", none⟩])])]
          true).2.assignments,
          a.generated_sku ∉ Sku.collect_existing_skus
            [("HAND TOOLS", [("HAMMERS",
              [CatalogEntry.product ⟨"Claw Hammer", 10, "d", none⟩,
               CatalogEntry.product ⟨"Sledge Hammer", 20, "d", some "X1"⟩,
               CatalogEntry.product ⟨"Tack Hammer", 5, "d", none⟩])])])
      ∧ ((Sku.generate_and_assign_skus
          [("HAND TOOLS", [("HAMMERS",
            [CatalogEntry.product ⟨"Claw Hammer", 10, "d", none⟩,
             CatalogEntry.product ⟨"Sledge Hammer", 20, "d", some "X1"⟩,
             CatalogEntry.product ⟨"Tack Hammer", 5, "d", none⟩])])]
          true).2.assignments.map (fun a => a.generated_sku)).Nodup) :=
  ⟨by decide, C4_amended_sku_uniqueness _ (by decide)⟩

end Spec2Proof
